import Mathlib

/-! # ENet platform layer: atomics, monotonic clock, socket send/receive

A shallow embedding of `atomics.h`, `enet_time.c` and the socket functions of
`unix.c`, with the properties of the specification stated over it.

C integers are modelled as `Int`; a conversion to a fixed-width C type is an
explicit reduction modulo `2 ^ (8 * size)`.
-/

namespace Atomics

/-- Conversion of an integer to the unsigned C type of `size` bytes. -/
def toUnsigned (size : Nat) (v : Int) : Int :=
  v % 2 ^ (8 * size)

/-- Conversion of an integer to the signed (two's complement) C type of `size`
bytes: `(char)`, `(SHORT)`, `(LONG)`, `(LONGLONG)` for sizes 1, 2, 4, 8. -/
def toSigned (size : Nat) (v : Int) : Int :=
  if v % 2 ^ (8 * size) < 2 ^ (8 * size - 1) then v % 2 ^ (8 * size)
  else v % 2 ^ (8 * size) - 2 ^ (8 * size)

/-- An integer C type: its `sizeof` and its signedness. -/
structure CType where
  size : Nat
  signed : Bool
deriving DecidableEq, Repr

/-- Implicit or explicit C conversion of a value to the type `t`. -/
def CType.conv (t : CType) (v : Int) : Int :=
  if t.signed then toSigned t.size v else toUnsigned t.size v

/-- The range of values of the type `t`. -/
def CType.holds (t : CType) (v : Int) : Prop :=
  t.conv v = v

instance (t : CType) (v : Int) : Decidable (t.holds v) := by
  unfold CType.holds; infer_instance

def uint64_t : CType := ⟨8, false⟩
def uint32_t : CType := ⟨4, false⟩

/-! ## The MSVC branch: width-dispatched functions over `char *ptr`

The `size` bytes at `ptr` are modelled by the unsigned number `mem` they
encode; the interlocked intrinsics read them as a signed value of that width.
Each function returns the new content of the cell together with its C result.
-/

/-- Model of `at_atomic_read (ptr, size)`: `_InterlockedExchangeAdd* (ptr, 0)`,
the cell read as a signed value of `size` bytes and widened to `int64_t`. -/
def at_atomic_read (mem : Int) (size : Nat) : Int :=
  match size with
  | 1 => toSigned 1 mem
  | 2 => toSigned 2 mem
  | 4 => toSigned 4 mem
  | 8 => toSigned 8 mem
  | _ => 0xbad13bad

/-- Model of `at_atomic_write (ptr, value, size)`: `_InterlockedExchange*`
stores `value` cast to the cell's width and returns the previous content. -/
def at_atomic_write (mem : Int) (value : Int) (size : Nat) : Int × Int :=
  match size with
  | 1 => (toUnsigned 1 (toSigned 1 value), toSigned 1 mem)
  | 2 => (toUnsigned 2 (toSigned 2 value), toSigned 2 mem)
  | 4 => (toUnsigned 4 (toSigned 4 value), toSigned 4 mem)
  | 8 => (toUnsigned 8 (toSigned 8 value), toSigned 8 mem)
  | _ => (mem, 0xbad13bad)

/-- The intrinsic `_InterlockedCompareExchange* (ptr, exchange, comparand)` at
`size` bytes: the cell is replaced by `exchange` when it equals `comparand`;
the initial content is returned. -/
def InterlockedCompareExchange (size : Nat) (mem exchange comparand : Int) : Int × Int :=
  if toSigned size mem = comparand then (toUnsigned size exchange, toSigned size mem)
  else (mem, toSigned size mem)

/-- Model of `at_atomic_cas (ptr, new_val, old_val, size)`. -/
def at_atomic_cas (mem : Int) (new_val old_val : Int) (size : Nat) : Int × Int :=
  match size with
  | 1 => InterlockedCompareExchange 1 mem (toSigned 1 new_val) (toSigned 1 old_val)
  | 2 => InterlockedCompareExchange 2 mem (toSigned 2 new_val) (toSigned 2 old_val)
  | 4 => InterlockedCompareExchange 4 mem (toSigned 4 new_val) (toSigned 4 old_val)
  | 8 => InterlockedCompareExchange 8 mem (toSigned 8 new_val) (toSigned 8 old_val)
  | _ => (mem, 0xbad13bad)

/-- The compare-and-swap contract of the specification for `at_atomic_cas` on a
cell of `size` bytes holding `mem`: if the cell equals `expected`, `desired` is
stored and `expected` returned; otherwise the cell is unchanged and its
current value returned. The value of a cell is what `at_atomic_read` gives. -/
def cas_contract (size : Nat) (mem expected desired : Int) : Prop :=
  (at_atomic_read mem size = expected →
    at_atomic_read (at_atomic_cas mem desired expected size).1 size = desired ∧
    (at_atomic_cas mem desired expected size).2 = expected) ∧
  (at_atomic_read mem size ≠ expected →
    (at_atomic_cas mem desired expected size).1 = mem ∧
    (at_atomic_cas mem desired expected size).2 = at_atomic_read mem size)

/-- `IS_SUPPORTED_ATOMIC (size)`: the widths the macros accept at compile time. -/
def IS_SUPPORTED_ATOMIC (size : Nat) : Prop :=
  size = 1 ∨ size = 2 ∨ size = 4 ∨ size = 8

instance (size : Nat) : Decidable (IS_SUPPORTED_ATOMIC size) := by
  unfold IS_SUPPORTED_ATOMIC; infer_instance

/-! ## The GCC/clang branch: `__atomic` builtins over a typed cell

A cell of type `t` holds a value `cell` with `t.holds cell`.
-/

/-- Model of `ATOMIC_READ (ptr)`: `__atomic_load_n (ptr, __ATOMIC_ACQUIRE)`. -/
def ATOMIC_READ (cell : Int) : Int :=
  cell

/-- Model of `ATOMIC_WRITE (ptr, value)`: `__atomic_store_n`; the value is
converted to the type of the cell. The result is the new content. -/
def ATOMIC_WRITE (t : CType) (value : Int) : Int :=
  t.conv value

/-- Model of `ATOMIC_CAS (ptr, old_value, new_value)` built on
`__atomic_compare_exchange_n`: `ATOMIC_CAS_expected_` is `old_value` converted
to the cell's type; on a match the cell becomes `new_value` (converted), on a
mismatch the builtin writes the current content into `ATOMIC_CAS_expected_`.
The result is the new content and the value of the statement expression. -/
def ATOMIC_CAS (t : CType) (cell old_value new_value : Int) : Int × Int :=
  let ATOMIC_CAS_expected_ := t.conv old_value
  if cell = ATOMIC_CAS_expected_ then (t.conv new_value, ATOMIC_CAS_expected_)
  else (cell, cell)

end Atomics

namespace EnetTime

open Atomics

def ns_in_s : Int := 1000 * 1000 * 1000
def ns_in_ms : Int := 1000 * 1000

/-- The fields of `struct timespec` filled in by `clock_gettime`. -/
structure timespec where
  tv_sec : Int
  tv_nsec : Int
deriving Repr

/-- The line `uint64_t current_time_ns = ts.tv_nsec + (uint64_t)ts.tv_sec * ns_in_s`. -/
def current_time_ns (ts : timespec) : Int :=
  uint64_t.conv (ts.tv_nsec + uint64_t.conv ts.tv_sec * ns_in_s)

/-- What one call of `enet_time_get` leaves in `start_time_ns` after its last
atomic access, and the value it returns. -/
structure TimeGet where
  start_time_ns : Int
  result : Int
deriving DecidableEq, Repr

/-- The statement `uint64_t want_value = current_time_ns - 1 * ns_in_ms`. -/
def want_value (current_time_ns : Int) : Int :=
  uint64_t.conv (current_time_ns - 1 * ns_in_ms)

/-- The last two lines of `enet_time_get`:
`result_in_ns = current_time_ns - offset_ns` in `uint64_t`, returned as
`(enet_uint32)(result_in_ns / ns_in_ms)`. -/
def result_in_ns (current_time_ns offset_ns : Int) : Int :=
  uint64_t.conv (current_time_ns - offset_ns)

def time_from (current_time_ns offset_ns : Int) : Int :=
  uint32_t.conv (result_in_ns current_time_ns offset_ns / ns_in_ms)

/-- Body of `enet_time_get` after the OS clock was read into `current_time_ns`.
The call makes at most two atomic accesses to `start_time_ns`; other threads
may run between them, so the content seen by `ATOMIC_READ` (`mem_at_read`) and
the content met by `ATOMIC_CAS` (`mem_at_cas`) are separate inputs. -/
def enet_time_get_at (current_time_ns mem_at_read mem_at_cas : Int) : TimeGet :=
  let offset_ns := ATOMIC_READ mem_at_read
  if offset_ns = 0 then
    let want := want_value current_time_ns
    let cas := ATOMIC_CAS uint64_t mem_at_cas 0 want
    let old_value := cas.2
    let offset_ns := if old_value = 0 then want else old_value
    ⟨cas.1, time_from current_time_ns offset_ns⟩
  else
    ⟨mem_at_read, time_from current_time_ns offset_ns⟩

/-- A call of `enet_time_get` that no other thread interleaves with. -/
def enet_time_get (ts : timespec) (start_time_ns : Int) : TimeGet :=
  enet_time_get_at (current_time_ns ts) start_time_ns start_time_ns

/-- The nanoseconds since the clock origin that a sequential call at
`current_time_ns` measures: `result_in_ns` for the origin the call settles on. -/
def elapsed_ns (current_time_ns start_time_ns : Int) : Int :=
  if start_time_ns = 0 then result_in_ns current_time_ns (want_value current_time_ns)
  else result_in_ns current_time_ns start_time_ns

/-! ### Calls of `enet_time_get` by several threads -/

/-- Where a call of `enet_time_get` stands: the OS clock is read and the
`ATOMIC_READ` is to come; the `ATOMIC_READ` gave 0 and the `ATOMIC_CAS` is to
come; or the call has returned `result`, computed from `offset_ns`. -/
inductive Phase where
  | entered
  | saw_zero
  | returned (offset_ns result : Int)
deriving DecidableEq, Repr

/-- One call of `enet_time_get`: its local `current_time_ns` and where it stands. -/
structure Call where
  current_time_ns : Int
  phase : Phase
deriving DecidableEq, Repr

/-- The static `start_time_ns` and the calls made so far. -/
structure ClockState where
  start_time_ns : Int
  calls : List Call
deriving DecidableEq, Repr

/-- The steps of the threads: a thread enters `enet_time_get` and reads the OS
clock, call `t` executes its `ATOMIC_READ`, call `t` executes its `ATOMIC_CAS`
and finishes. -/
inductive Action where
  | enter (ts : timespec)
  | atomic_read (t : Nat)
  | atomic_cas (t : Nat)

/-- One step of one thread. A call that reads a nonzero origin goes on to
return without another access to `start_time_ns`. -/
def step (s : ClockState) (a : Action) : ClockState :=
  match a with
  | .enter ts => { s with calls := s.calls ++ [⟨current_time_ns ts, .entered⟩] }
  | .atomic_read t =>
    match s.calls[t]? with
    | some ⟨current_time_ns, .entered⟩ =>
      let offset_ns := ATOMIC_READ s.start_time_ns
      if offset_ns = 0 then { s with calls := s.calls.set t ⟨current_time_ns, .saw_zero⟩ }
      else
        let result := time_from current_time_ns offset_ns
        { s with calls := s.calls.set t ⟨current_time_ns, .returned offset_ns result⟩ }
    | _ => s
  | .atomic_cas t =>
    match s.calls[t]? with
    | some ⟨current_time_ns, .saw_zero⟩ =>
      let want := want_value current_time_ns
      let cas := ATOMIC_CAS uint64_t s.start_time_ns 0 want
      let old_value := cas.2
      let offset_ns := if old_value = 0 then want else old_value
      let result := time_from current_time_ns offset_ns
      { start_time_ns := cas.1,
        calls := s.calls.set t ⟨current_time_ns, .returned offset_ns result⟩ }
    | _ => s

/-- The process at start: the static `start_time_ns` is zero-initialised. -/
def init : ClockState :=
  ⟨0, []⟩

/-- The state reached from `init` by a schedule of steps. -/
def run (schedule : List Action) : ClockState :=
  schedule.foldl step init

/-- The origins the calls that have returned computed their results from, in
the order the calls were entered. -/
def offsets (s : ClockState) : List Int :=
  s.calls.filterMap fun call =>
    match call.phase with
    | .returned offset_ns _ => some offset_ns
    | _ => none

/-- The invariant of the clock: every reading is a `uint64_t`; a call that has
returned computed its result from the origin it reports, which is the content
of `start_time_ns` unless it is 0, and it is 0 only for a reading of 1 ms. -/
def ClockInv (s : ClockState) : Prop :=
  ∀ call ∈ s.calls,
    (0 ≤ call.current_time_ns ∧ call.current_time_ns < 18446744073709551616) ∧
    ∀ offset_ns result, call.phase = .returned offset_ns result →
      result = (call.current_time_ns - offset_ns) % 18446744073709551616 / 1000000
        % 4294967296 ∧
      (offset_ns ≠ 0 → s.start_time_ns = offset_ns) ∧
      (offset_ns = 0 → call.current_time_ns = 1000000)

end EnetTime

namespace Unix

/-- The C type `int` of the functions' return values. -/
def int : Atomics.CType := ⟨4, true⟩

namespace NativeClient

/-! ## The `#if __native_client__` branch: buffer pool, `sendto`, `recvfrom` -/

def NUM_BUFFERS : Nat := 20
def BUFFER_SIZE : Nat := 32 * 1024

/-- The name `ATOMIC_CAS` as `unix.c` redefines it: `__sync_bool_compare_and_swap`
on an `enet_uint32` flag. The result is the new content of the flag and whether
the swap took place. -/
def ATOMIC_CAS (cell old_value new_val : Nat) : Nat × Bool :=
  if cell = old_value then (new_val, true) else (cell, false)

/-- The struct `GlobalSendBuffer`: the flag `free` and the bytes of `buffer`,
of which the indices below `BUFFER_SIZE` are the array. -/
structure GlobalSendBuffer where
  free : Nat
  buffer : Nat → Nat

/-- The array `g_send_buffers`, of which the indices below `NUM_BUFFERS` are the
slots; the indices from `NUM_BUFFERS` on stand for the memory that follows the
array, cut up in the same way. -/
abbrev Pool := Nat → GlobalSendBuffer

/-- Modelled from the spec: the type `ENetBuffer` (declared in `enet/enet.h`),
a read-only (pointer, length) pair describing one fragment of a scatter-gather
request. `data` lists the `dataLength` bytes the pointer refers to. -/
structure ENetBuffer where
  data : List Nat
deriving DecidableEq, Repr

def ENetBuffer.dataLength (b : ENetBuffer) : Nat :=
  b.data.length

/-- Assignment to `g_send_buffers[idx].free`. -/
def set_free (pool : Pool) (idx v : Nat) : Pool :=
  fun j => if j = idx then { pool j with free := v } else pool j

/-- The content of `g_send_buffers[idx].buffer` after writes through `send_buff`. -/
def set_buffer (pool : Pool) (idx : Nat) (send_buff : Nat → Nat) : Pool :=
  fun j => if j = idx then { pool j with buffer := send_buff } else pool j

/-- How the acquire loop of `enet_socket_send` ends. -/
inductive Acquire where
  /-- The `break`: the CAS on slot `buff_idx` succeeded at attempt `num_tries`,
  after `sleeps` executions of `usleep`. -/
  | acquired (pool : Pool) (buff_idx num_tries sleeps : Nat)
  /-- The branch `usleep (1 * 1000); assert (false);` in a build with assertions. -/
  | assert_failed (num_tries : Nat)
  /-- The loop is still spinning when the fuel of the model is used up. -/
  | out_of_fuel

/-- The loop `while (1)` that searches a free slot, run for at most `fuel`
iterations by one thread while no other thread touches the flags. `NDEBUG`
tells whether `assert` is compiled out. -/
def acquire_loop (NDEBUG : Bool) (pool : Pool) : (fuel buff_idx num_tries sleeps : Nat) → Acquire
  | 0, _, _, _ => .out_of_fuel
  | fuel + 1, buff_idx, num_tries, sleeps =>
    let cas := ATOMIC_CAS (pool buff_idx).free 0 1
    if cas.2 then .acquired (set_free pool buff_idx cas.1) buff_idx num_tries sleeps
    else
      let buff_idx := (buff_idx + 1) % NUM_BUFFERS
      if num_tries % NUM_BUFFERS = 0 then
        if NDEBUG then acquire_loop NDEBUG pool fuel buff_idx (num_tries + 1) (sleeps + 1)
        else .assert_failed num_tries
      else acquire_loop NDEBUG pool fuel buff_idx (num_tries + 1) sleeps

/-- The call `memcpy (dest + offset, src, n)` with `src` the `n` source bytes. -/
def memcpy (dest : Nat → Nat) (offset : Nat) (src : List Nat) : Nat → Nat :=
  fun j => if offset ≤ j ∧ j < offset + src.length then src.getD (j - offset) 0 else dest j

/-- The loop `for (i = 0; i < bufferCount; i++)` that flattens the fragments
through the pointer `send_buff`, with `sendsize` an `enet_uint32`. The function
`send_buff` gives the bytes of memory from the start of the slot's buffer on:
index `j` is the byte at `send_buff + j`, which from `BUFFER_SIZE` on lies
behind the buffer. The loop makes no test of capacity. The result is the bytes
there after the loop, and `sendsize`. -/
def copy_loop (send_buff : Nat → Nat) (sendsize : Nat) :
    List ENetBuffer → (Nat → Nat) × Nat
  | [] => (send_buff, sendsize)
  | b :: rest =>
    copy_loop (memcpy send_buff sendsize b.data) ((sendsize + b.dataLength) % 2 ^ 32) rest

/-- The indices of `send_buff` that the copy loop of `enet_socket_send` writes,
in order: the call `memcpy (send_buff + sendsize, data, dataLength)` writes the
`dataLength` indices from `sendsize` on, and the loop makes no test on them.
`sendsize` is an `enet_uint32`. -/
def copy_loop_indices (sendsize : Nat) : List ENetBuffer → List Nat
  | [] => []
  | b :: rest =>
    List.range' sendsize b.dataLength ++
      copy_loop_indices ((sendsize + b.dataLength) % 2 ^ 32) rest

/-- The size of the struct `GlobalSendBuffer`: the 4 bytes of `free` followed by
the `BUFFER_SIZE` bytes of `buffer`, without padding. -/
def SLOT_SIZE : Nat := 4 + BUFFER_SIZE

/-- Byte `r` (0 to 3) of the `enet_uint32` flag as it lies in memory, lowest
byte first as on the little-endian targets of Native Client. -/
def flag_byte (free r : Nat) : Nat :=
  free / 256 ^ r % 256

/-- The flag after byte `r` of it was overwritten with `byte`. -/
def set_flag_byte (free r byte : Nat) : Nat :=
  free - flag_byte free r * 256 ^ r + byte % 256 * 256 ^ r

/-- The byte at the address `g_send_buffers[buff_idx].buffer + j`. Below
`BUFFER_SIZE` it is a byte of the buffer of the slot. The elements of the array
being contiguous, a larger `j` reaches a following element: the 4 bytes of its
flag `free`, then its buffer. -/
def load_byte (pool : Pool) (buff_idx j : Nat) : Nat :=
  if j < BUFFER_SIZE then (pool buff_idx).buffer j
  else
    let slot := buff_idx + 1 + (j - BUFFER_SIZE) / SLOT_SIZE
    let r := (j - BUFFER_SIZE) % SLOT_SIZE
    if r < 4 then flag_byte (pool slot).free r
    else (pool slot).buffer (r - 4)

/-- The array after `byte` is stored at `g_send_buffers[buff_idx].buffer + j`. -/
def store_byte (pool : Pool) (buff_idx j byte : Nat) : Pool :=
  if j < BUFFER_SIZE then
    set_buffer pool buff_idx (fun i => if i = j then byte else (pool buff_idx).buffer i)
  else
    let slot := buff_idx + 1 + (j - BUFFER_SIZE) / SLOT_SIZE
    let r := (j - BUFFER_SIZE) % SLOT_SIZE
    if r < 4 then set_free pool slot (set_flag_byte (pool slot).free r byte)
    else set_buffer pool slot (fun i => if i = r - 4 then byte else (pool slot).buffer i)

/-- The array after the bytes of `send_buff` at the written `indices` are
stored at their addresses. -/
def store_bytes (pool : Pool) (buff_idx : Nat) (send_buff : Nat → Nat)
    (indices : List Nat) : Pool :=
  indices.foldl (fun pool j => store_byte pool buff_idx j (send_buff j)) pool

/-- How a call of the pool-based `enet_socket_send` ends. -/
inductive SendResult where
  /-- The function returned `result`, leaving `g_send_buffers` as `pool`. -/
  | returned (pool : Pool) (result : Int)
  | assert_failed
  | out_of_fuel

/-- The pool-based `enet_socket_send`, run by one thread. The pointer
`send_buff` is the view `load_byte pool buff_idx` of memory; the copy loop
writes through it unchecked, and `store_bytes` puts what it wrote into the
array, beyond the buffer of the slot when the fragments do not fit. `sendto`
stands for the OS call on the given socket and address: given `send_buff` and
`sendsize` it yields the `ssize_t` result and the `errno` it leaves. The test
`sentLength == -1` is made on the `ssize_t`, which is then returned as `int`. -/
def enet_socket_send (EWOULDBLOCK : Int) (NDEBUG : Bool)
    (sendto : (Nat → Nat) → Nat → Int × Int) (fuel : Nat)
    (pool : Pool) (buffers : List ENetBuffer) : SendResult :=
  match acquire_loop NDEBUG pool fuel 0 1 0 with
  | .out_of_fuel => .out_of_fuel
  | .assert_failed _ => .assert_failed
  | .acquired pool buff_idx _ _ =>
    let copied := copy_loop (load_byte pool buff_idx) 0 buffers
    let send_buff := copied.1
    let sendsize := copied.2
    let pool := store_bytes pool buff_idx send_buff (copy_loop_indices 0 buffers)
    let sent := sendto send_buff sendsize
    let sentLength := sent.1
    let errno := sent.2
    let pool := set_free pool buff_idx (ATOMIC_CAS (pool buff_idx).free 1 0).1
    if sentLength = -1 then
      if errno = EWOULDBLOCK then .returned pool 0
      else .returned pool (-1)
    else .returned pool (int.conv sentLength)

/-- The loop of the buffer-by-buffer `enet_socket_receive`, from fragment `i`
on with `recvLength` bytes received so far. `results` lists, for the fragments
still to fill, the `ssize_t` result of `recvfrom` and the `errno` it leaves.
The `size_t` count is returned as `int`. -/
def receive_loop (EWOULDBLOCK : Int) : (i : Nat) → (recvLength : Int) → List (Int × Int) → Int
  | _, recvLength, [] => int.conv recvLength
  | i, recvLength, (rc, errno) :: rest =>
    if rc = -1 then
      if i = 0 then
        if errno = EWOULDBLOCK then 0 else -1
      else int.conv recvLength
    else receive_loop EWOULDBLOCK (i + 1) (recvLength + rc) rest

/-- The return value of the buffer-by-buffer `enet_socket_receive`; `results`
has one entry per requested buffer, `bufferCount` being its length. -/
def enet_socket_receive (EWOULDBLOCK : Int) (results : List (Int × Int)) : Int :=
  receive_loop EWOULDBLOCK 0 0 results

/-! ### The flags of the pool under concurrent calls -/

/-- Where an in-flight `enet_socket_send` stands with respect to the pool. -/
inductive Phase where
  | acquiring
  | owning
  | returned
deriving DecidableEq, Repr

/-- The locals of one call of `enet_socket_send` that concern the pool. -/
structure SendCall where
  phase : Phase
  buff_idx : Nat
  num_tries : Nat
deriving DecidableEq, Repr

/-- The flags `g_send_buffers[i].free`, the calls made so far, and whether an
`assert (false)` has stopped the process. -/
structure PoolState where
  free : Nat → Nat
  calls : List SendCall
  aborted : Bool

/-- The atomic steps on the flags: a thread enters `enet_socket_send`, call `t`
executes the CAS of the acquire loop, call `t` executes the releasing CAS. -/
inductive Action where
  | enter
  | try_acquire (t : Nat)
  | release (t : Nat)
deriving DecidableEq, Repr

def set_flag (free : Nat → Nat) (idx v : Nat) : Nat → Nat :=
  fun j => if j = idx then v else free j

/-- One atomic step of the pool. -/
def step (NDEBUG : Bool) (s : PoolState) (a : Action) : PoolState :=
  if s.aborted then s
  else
    match a with
    | .enter => { s with calls := s.calls ++ [⟨.acquiring, 0, 1⟩] }
    | .try_acquire t =>
      match s.calls[t]? with
      | none => s
      | some c =>
        if c.phase = .acquiring then
          let cas := ATOMIC_CAS (s.free c.buff_idx) 0 1
          if cas.2 then
            { s with free := set_flag s.free c.buff_idx cas.1,
                     calls := s.calls.set t { c with phase := .owning } }
          else if c.num_tries % NUM_BUFFERS = 0 ∧ NDEBUG = false then
            { s with aborted := true }
          else
            let c := { c with buff_idx := (c.buff_idx + 1) % NUM_BUFFERS,
                              num_tries := c.num_tries + 1 }
            { s with calls := s.calls.set t c }
        else s
    | .release t =>
      match s.calls[t]? with
      | none => s
      | some c =>
        if c.phase = .owning then
          { s with free := set_flag s.free c.buff_idx (ATOMIC_CAS (s.free c.buff_idx) 1 0).1,
                   calls := s.calls.set t { c with phase := .returned } }
        else s

/-- The pool at process start: `g_send_buffers` is zero-initialised. -/
def init : PoolState :=
  ⟨fun _ => 0, [], false⟩

/-- The state reached from `init` by a schedule of atomic steps. -/
def run (NDEBUG : Bool) (schedule : List Action) : PoolState :=
  schedule.foldl (step NDEBUG) init

/-- Whether the call `c` owns slot `i`: it is between its acquiring CAS and its
releasing CAS with `buff_idx = i`. -/
def owns (i : Nat) (c : SendCall) : Bool :=
  c.phase = .owning && c.buff_idx = i

/-- The in-flight calls that own slot `i`. -/
def owners (s : PoolState) (i : Nat) : List SendCall :=
  s.calls.filter (owns i)

/-- The pool invariant: each flag counts the calls that own its slot, and no
slot has more than one owner. -/
def PoolInv (s : PoolState) : Prop :=
  ∀ i, s.free i = s.calls.countP (owns i) ∧ s.free i ≤ 1

end NativeClient

namespace Posix

/-! ## The `#else` branch: `sendmsg` -/

/-- The `sendmsg`-based `enet_socket_send`. `sendmsg` stands for the OS call:
it yields the `ssize_t` result, stored in `int sentLength`, and the `errno`. -/
def enet_socket_send (EWOULDBLOCK : Int)
    (sendmsg : List NativeClient.ENetBuffer → Int × Int)
    (buffers : List NativeClient.ENetBuffer) : Int :=
  let sent := sendmsg buffers
  let sentLength := int.conv sent.1
  let errno := sent.2
  if sentLength = -1 then
    if errno = EWOULDBLOCK then 0
    else -1
  else sentLength

end Posix

namespace NativeClient

/-- What `recvfrom` answers on a datagram socket when a datagram of `datagram`
bytes is pending and the buffer holds `dataLength` bytes: the bytes that fit
are copied, the rest of the datagram is dropped, and the count copied is the
result. The call has no output that tells of the dropped bytes. -/
def recvfrom_datagram (dataLength datagram : Nat) : Int × Int :=
  (min dataLength datagram, 0)

end NativeClient

namespace Posix

/-- What `recvmsg` leaves: its `ssize_t` result, `errno`, and `msgHdr.msg_flags`. -/
structure RecvmsgAnswer where
  recvLength : Int
  errno : Int
  msg_flags : Nat
deriving DecidableEq, Repr

/-- The return value of the `recvmsg`-based `enet_socket_receive`. `recvmsg`
stands for the OS call on the buffers of the given lengths; its result is
stored in `int recvLength`. `HAS_MSGHDR_FLAGS` tells whether the test of
`MSG_TRUNC` is compiled in. -/
def enet_socket_receive (EWOULDBLOCK : Int) (MSG_TRUNC : Nat) (HAS_MSGHDR_FLAGS : Bool)
    (recvmsg : List Nat → RecvmsgAnswer) (buffers : List Nat) : Int :=
  let answer := recvmsg buffers
  let recvLength := int.conv answer.recvLength
  if recvLength = -1 then
    if answer.errno = EWOULDBLOCK then 0
    else -1
  else if HAS_MSGHDR_FLAGS = true ∧ answer.msg_flags &&& MSG_TRUNC ≠ 0 then -1
  else recvLength

end Posix

/-! ## Functions outside the two branches -/

/-- The function `enet_socket_listen`; `listen` stands for the OS call, given
the socket and the backlog. -/
def enet_socket_listen (SOMAXCONN : Int) (listen : Int → Int → Int)
    (socket backlog : Int) : Int :=
  listen socket (if backlog < 0 then SOMAXCONN else backlog)

/-- Modelled from the spec: the enum `ENetSocketOption` (declared in
`enet/enet.h`), the enumerated option set non-blocking mode, broadcast, address
reuse, receive buffer size, send buffer size, receive timeout, send timeout,
no-delay, type-of-service, last-error query, under the names the `case` labels
give them. `other` is a value of the enum type that is none of these. -/
inductive ENetSocketOption where
  | ENET_SOCKOPT_NONBLOCK
  | ENET_SOCKOPT_BROADCAST
  | ENET_SOCKOPT_REUSEADDR
  | ENET_SOCKOPT_RCVBUF
  | ENET_SOCKOPT_SNDBUF
  | ENET_SOCKOPT_RCVTIMEO
  | ENET_SOCKOPT_SNDTIMEO
  | ENET_SOCKOPT_NODELAY
  | ENET_SOCKOPT_TOS
  | ENET_SOCKOPT_ERROR
  | other (value : Int)
deriving DecidableEq, Repr

/-- The `level` argument of `setsockopt` and `getsockopt`. -/
inductive SockLevel where
  | SOL_SOCKET
  | IPPROTO_TCP
  | IPPROTO_IP
deriving DecidableEq, Repr

/-- The `optname` argument of `setsockopt` and `getsockopt`. -/
inductive SockOptName where
  | SO_BROADCAST
  | SO_REUSEADDR
  | SO_RCVBUF
  | SO_SNDBUF
  | SO_RCVTIMEO
  | SO_SNDTIMEO
  | TCP_NODELAY
  | IP_TOS
  | SO_ERROR
deriving DecidableEq, Repr

/-- The object `optval` points to: the `int value` or a `struct timeval`. -/
inductive OptVal where
  | int_value (value : Int)
  | timeval (tv_sec tv_usec : Int)
deriving DecidableEq, Repr

/-- The OS calls the option functions issue on the socket. -/
inductive Syscall where
  | fcntl_F_GETFL
  | fcntl_F_SETFL (arg : Int)
  | ioctl_fionbio (value : Int)
  | setsockopt (level : SockLevel) (optname : SockOptName) (optval : OptVal)
  | getsockopt (level : SockLevel) (optname : SockOptName)
deriving DecidableEq, Repr

/-- The value of a C expression that is one OS call, with the call recorded. -/
def issue (os : Syscall → Int) (call : Syscall) : Int × List Syscall :=
  (os call, [call])

/-- The `struct timeval` that the timeout options build from `value`
milliseconds, with the division and remainder of C. -/
def timeVal (value : Int) : OptVal :=
  .timeval (Int.tdiv value 1000) (Int.tmod value 1000 * 1000)

/-- The `switch` of `enet_socket_set_option`: the value left in `result` and
the OS calls issued, in order. `os` gives the result of each OS call. -/
def set_option_switch (HAS_FCNTL : Bool) (O_NONBLOCK : Int) (os : Syscall → Int)
    (option : ENetSocketOption) (value : Int) : Int × List Syscall :=
  match option with
  | .ENET_SOCKOPT_NONBLOCK =>
    if HAS_FCNTL then
      (os (.fcntl_F_SETFL (Int.lor O_NONBLOCK (os .fcntl_F_GETFL))),
        [.fcntl_F_GETFL, .fcntl_F_SETFL (Int.lor O_NONBLOCK (os .fcntl_F_GETFL))])
    else issue os (.ioctl_fionbio value)
  | .ENET_SOCKOPT_BROADCAST => issue os (.setsockopt .SOL_SOCKET .SO_BROADCAST (.int_value value))
  | .ENET_SOCKOPT_REUSEADDR => issue os (.setsockopt .SOL_SOCKET .SO_REUSEADDR (.int_value value))
  | .ENET_SOCKOPT_RCVBUF => issue os (.setsockopt .SOL_SOCKET .SO_RCVBUF (.int_value value))
  | .ENET_SOCKOPT_SNDBUF => issue os (.setsockopt .SOL_SOCKET .SO_SNDBUF (.int_value value))
  | .ENET_SOCKOPT_RCVTIMEO => issue os (.setsockopt .SOL_SOCKET .SO_RCVTIMEO (timeVal value))
  | .ENET_SOCKOPT_SNDTIMEO => issue os (.setsockopt .SOL_SOCKET .SO_SNDTIMEO (timeVal value))
  | .ENET_SOCKOPT_NODELAY => issue os (.setsockopt .IPPROTO_TCP .TCP_NODELAY (.int_value value))
  | .ENET_SOCKOPT_TOS => issue os (.setsockopt .IPPROTO_IP .IP_TOS (.int_value value))
  | _ => (-1, [])

/-- The function `enet_socket_set_option`: its return value and the OS calls issued. -/
def enet_socket_set_option (HAS_FCNTL : Bool) (O_NONBLOCK : Int) (os : Syscall → Int)
    (option : ENetSocketOption) (value : Int) : Int × List Syscall :=
  let switch := set_option_switch HAS_FCNTL O_NONBLOCK os option value
  (if switch.1 = -1 then -1 else 0, switch.2)

/-- The `switch` of `enet_socket_get_option`: the value left in `result` and
the OS calls issued. -/
def get_option_switch (os : Syscall → Int) (option : ENetSocketOption) : Int × List Syscall :=
  match option with
  | .ENET_SOCKOPT_ERROR => issue os (.getsockopt .SOL_SOCKET .SO_ERROR)
  | _ => (-1, [])

/-- The function `enet_socket_get_option`: its return value and the OS calls
issued. What `getsockopt` stores through `value` is not part of the model. -/
def enet_socket_get_option (os : Syscall → Int) (option : ENetSocketOption) :
    Int × List Syscall :=
  let switch := get_option_switch os option
  (if switch.1 = -1 then -1 else 0, switch.2)

/-- The constants `enet_socket_wait` uses, of `enet/enet.h` (the flags of the
enum `ENetSocketWait`) and of the system headers; their values are not part of
the sources. -/
structure WaitConstants where
  ENET_SOCKET_WAIT_NONE : Nat
  ENET_SOCKET_WAIT_SEND : Nat
  ENET_SOCKET_WAIT_RECEIVE : Nat
  ENET_SOCKET_WAIT_INTERRUPT : Nat
  POLLOUT : Nat
  POLLIN : Nat
  EINTR : Int
deriving DecidableEq, Repr

namespace Poll

/-! ## `enet_socket_wait` under `HAS_POLL` -/

/-- What `poll` leaves: its result, `errno`, and `pollSocket.revents`. -/
structure PollAnswer where
  pollCount : Int
  errno : Int
  revents : Nat
deriving DecidableEq, Repr

/-- The field `pollSocket.events` built from the interest flags in `* condition`. -/
def events (K : WaitConstants) (condition : Nat) : Nat :=
  let events := 0
  let events :=
    if condition &&& K.ENET_SOCKET_WAIT_SEND ≠ 0 then events ||| K.POLLOUT else events
  let events :=
    if condition &&& K.ENET_SOCKET_WAIT_RECEIVE ≠ 0 then events ||| K.POLLIN else events
  events

/-- The call `poll (& pollSocket, 1, timeout)` that `enet_socket_wait` makes;
`poll` stands for the OS call, given the requested events and the timeout. -/
def os_answer (K : WaitConstants) (poll : Nat → Nat → PollAnswer)
    (condition timeout : Nat) : PollAnswer :=
  poll (events K condition) timeout

/-- The `poll`-based `enet_socket_wait`: its return value and the content of
`* condition` when it returns. -/
def enet_socket_wait (K : WaitConstants) (poll : Nat → Nat → PollAnswer)
    (condition timeout : Nat) : Int × Nat :=
  let answer := os_answer K poll condition timeout
  if answer.pollCount < 0 then
    if answer.errno = K.EINTR ∧ condition &&& K.ENET_SOCKET_WAIT_INTERRUPT ≠ 0 then
      (0, K.ENET_SOCKET_WAIT_INTERRUPT)
    else (-1, condition)
  else
    let condition := K.ENET_SOCKET_WAIT_NONE
    if answer.pollCount = 0 then (0, condition)
    else
      let condition :=
        if answer.revents &&& K.POLLOUT ≠ 0 then condition ||| K.ENET_SOCKET_WAIT_SEND
        else condition
      let condition :=
        if answer.revents &&& K.POLLIN ≠ 0 then condition ||| K.ENET_SOCKET_WAIT_RECEIVE
        else condition
      (0, condition)

end Poll

namespace Select

/-! ## `enet_socket_wait` without `HAS_POLL` -/

/-- What `select` leaves: its result, `errno`, and whether the socket is in
`readSet` and in `writeSet` afterwards (`FD_ISSET`). -/
structure SelectAnswer where
  selectCount : Int
  errno : Int
  readSet : Bool
  writeSet : Bool
deriving DecidableEq, Repr

/-- The call `select (socket + 1, & readSet, & writeSet, NULL, & timeVal)` that
`enet_socket_wait` makes; `select` stands for the OS call, given whether the
socket was put in `readSet` and in `writeSet`, and the fields of `timeVal`. -/
def os_answer (K : WaitConstants) (select : Bool → Bool → Nat → Nat → SelectAnswer)
    (condition timeout : Nat) : SelectAnswer :=
  let tv_sec := timeout / 1000
  let tv_usec := (timeout % 1000) * 1000
  let writeSet := decide (condition &&& K.ENET_SOCKET_WAIT_SEND ≠ 0)
  let readSet := decide (condition &&& K.ENET_SOCKET_WAIT_RECEIVE ≠ 0)
  select readSet writeSet tv_sec tv_usec

/-- The `select`-based `enet_socket_wait`: its return value and the content of
`* condition` when it returns. -/
def enet_socket_wait (K : WaitConstants) (select : Bool → Bool → Nat → Nat → SelectAnswer)
    (condition timeout : Nat) : Int × Nat :=
  let answer := os_answer K select condition timeout
  if answer.selectCount < 0 then
    if answer.errno = K.EINTR ∧ condition &&& K.ENET_SOCKET_WAIT_INTERRUPT ≠ 0 then
      (0, K.ENET_SOCKET_WAIT_INTERRUPT)
    else (-1, condition)
  else
    let condition := K.ENET_SOCKET_WAIT_NONE
    if answer.selectCount = 0 then (0, condition)
    else
      let condition :=
        if answer.writeSet = true then condition ||| K.ENET_SOCKET_WAIT_SEND else condition
      let condition :=
        if answer.readSet = true then condition ||| K.ENET_SOCKET_WAIT_RECEIVE else condition
      (0, condition)

end Select

end Unix

/-! # Properties -/

namespace Atomics

theorem toSigned_idem {size : Nat} (h : IS_SUPPORTED_ATOMIC size) (v : Int) :
    toSigned size (toSigned size v) = toSigned size v := by
  rcases h with h | h | h | h <;> subst h <;> simp only [toSigned] <;> norm_num <;>
    split_ifs <;> omega

theorem toSigned_toUnsigned {size : Nat} (h : IS_SUPPORTED_ATOMIC size) (v : Int) :
    toSigned size (toUnsigned size v) = toSigned size v := by
  rcases h with h | h | h | h <;> subst h <;> simp only [toSigned, toUnsigned] <;> norm_num

theorem at_atomic_read_eq {size : Nat} (h : IS_SUPPORTED_ATOMIC size) (mem : Int) :
    at_atomic_read mem size = toSigned size mem := by
  rcases h with h | h | h | h <;> subst h <;> rfl

theorem at_atomic_write_eq {size : Nat} (h : IS_SUPPORTED_ATOMIC size) (mem value : Int) :
    at_atomic_write mem value size
      = (toUnsigned size (toSigned size value), toSigned size mem) := by
  rcases h with h | h | h | h <;> subst h <;> rfl

theorem at_atomic_cas_eq {size : Nat} (h : IS_SUPPORTED_ATOMIC size)
    (mem new_val old_val : Int) :
    at_atomic_cas mem new_val old_val size =
      InterlockedCompareExchange size mem (toSigned size new_val) (toSigned size old_val) := by
  rcases h with h | h | h | h <;> subst h <;> rfl

/-- C4, as stated, fails: on a 1-byte cell holding 0, `at_atomic_cas` with
expected value 256 and desired value 1 compares against `(char)256 = 0`, so it
stores 1 although the cell does not equal the expected value; and on a 1-byte
cell whose content is 200, with expected value 200, it stores the desired 7 but
returns -56, the content read as a signed byte, not the expected value. -/
theorem at_atomic_cas_narrows_its_arguments :
    ¬ cas_contract 1 0 256 1 ∧ at_atomic_cas 200 7 200 1 = (7, -56) := by
  refine ⟨?_, by decide⟩
  intro h
  have h2 := (h.2 (by decide)).1
  revert h2
  decide

/-- C4, amended: for every cell of width 1, 2, 4 or 8 bytes and every expected
and desired value representable as a signed integer of that width (the type
`at_atomic_cas` casts its arguments to and returns the cell as), `at_atomic_cas`
stores the desired value and returns the expected one if the cell equals the
expected value, and otherwise leaves the cell unchanged and returns its current
value; arguments outside that range act as their narrowed values. The
`__atomic` based `ATOMIC_CAS` keeps the same contract for every expected and
desired value of the type `t` of the cell, signed or unsigned. -/
theorem cas_contract_at_cell_width :
    (∀ (size : Nat) (mem expected desired : Int), IS_SUPPORTED_ATOMIC size →
      toSigned size expected = expected → toSigned size desired = desired →
      cas_contract size mem expected desired) ∧
    (∀ (size : Nat) (mem new_val old_val : Int), IS_SUPPORTED_ATOMIC size →
      at_atomic_cas mem new_val old_val size
        = at_atomic_cas mem (toSigned size new_val) (toSigned size old_val) size) ∧
    (∀ (t : CType) (cell expected desired : Int), t.holds expected → t.holds desired →
      (cell = expected → ATOMIC_CAS t cell expected desired = (desired, expected)) ∧
      (cell ≠ expected → ATOMIC_CAS t cell expected desired = (cell, cell))) := by
  refine ⟨?_, ?_, ?_⟩
  · intro size mem expected desired hs he hd
    refine ⟨?_, ?_⟩
    · intro hread
      rw [at_atomic_read_eq hs] at hread
      rw [at_atomic_cas_eq hs, he, hd]
      simp only [InterlockedCompareExchange, hread, if_true]
      rw [at_atomic_read_eq hs, toSigned_toUnsigned hs, hd]
      exact ⟨rfl, trivial⟩
    · intro hread
      rw [at_atomic_read_eq hs] at hread
      rw [at_atomic_cas_eq hs, he, hd]
      simp only [InterlockedCompareExchange, hread, if_false]
      rw [at_atomic_read_eq hs]
      exact ⟨trivial, rfl⟩
  · intro size mem new_val old_val hs
    rw [at_atomic_cas_eq hs, at_atomic_cas_eq hs, toSigned_idem hs, toSigned_idem hs]
  · intro t cell expected desired het hdt
    unfold CType.holds at het hdt
    constructor
    · intro hcell
      simp [ATOMIC_CAS, het, hdt, hcell]
    · intro hcell
      simp [ATOMIC_CAS, het, hcell]

theorem cas_contract_at_cell_width_witness :
    (at_atomic_read (at_atomic_cas 5 7 5 1).1 1 = 7 ∧ (at_atomic_cas 5 7 5 1).2 = 5) ∧
    ((at_atomic_cas 5 7 6 1).1 = 5 ∧ (at_atomic_cas 5 7 6 1).2 = at_atomic_read 5 1) ∧
    at_atomic_cas 0 1 256 1 = at_atomic_cas 0 (toSigned 1 1) (toSigned 1 256) 1 ∧
    ATOMIC_CAS uint64_t 0 0 18446744073708551616 = (18446744073708551616, 0) ∧
    ATOMIC_CAS uint64_t 4000000 0 18446744073708551616 = (4000000, 4000000) :=
  ⟨(cas_contract_at_cell_width.1 1 5 5 7 (by decide) (by decide) (by decide)).1 (by decide),
   (cas_contract_at_cell_width.1 1 5 6 7 (by decide) (by decide) (by decide)).2 (by decide),
   cas_contract_at_cell_width.2.1 1 0 1 256 (by decide),
   (cas_contract_at_cell_width.2.2 uint64_t 0 0 18446744073708551616 (by decide)
      (by decide)).1 rfl,
   (cas_contract_at_cell_width.2.2 uint64_t 4000000 0 18446744073708551616 (by decide)
      (by decide)).2 (by decide)⟩

/-- C5, as stated, fails: writing 300 to a 1-byte cell and reading it back
gives 44, the value narrowed to the width of the cell. -/
theorem at_atomic_write_read_loses_wide_value :
    at_atomic_read (at_atomic_write 0 300 1).1 1 ≠ 300 := by
  decide

/-- C5, amended: for every cell width in 1, 2, 4, 8 and every value passed to
`at_atomic_write`, an immediately following `at_atomic_read` returns the value
narrowed to the width of the cell (as a signed integer of that width); it is
the written value exactly when that value is representable at the width. The
`__atomic` based macros likewise read back the value converted to the type of
the cell. -/
theorem at_atomic_write_read_narrowed (size : Nat) (mem value : Int) (t : CType)
    (hs : IS_SUPPORTED_ATOMIC size) :
    at_atomic_read (at_atomic_write mem value size).1 size = toSigned size value ∧
    (at_atomic_read (at_atomic_write mem value size).1 size = value ↔
      toSigned size value = value) ∧
    ATOMIC_READ (ATOMIC_WRITE t value) = t.conv value := by
  have h : at_atomic_read (at_atomic_write mem value size).1 size = toSigned size value := by
    rw [at_atomic_write_eq hs, at_atomic_read_eq hs, toSigned_toUnsigned hs, toSigned_idem hs]
  exact ⟨h, by rw [h], rfl⟩

theorem at_atomic_write_read_narrowed_witness :
    at_atomic_read (at_atomic_write 7 (-2) 2).1 2 = toSigned 2 (-2) ∧
    (at_atomic_read (at_atomic_write 7 (-2) 2).1 2 = -2 ↔ toSigned 2 (-2) = -2) ∧
    ATOMIC_READ (ATOMIC_WRITE uint32_t (-2)) = uint32_t.conv (-2) :=
  at_atomic_write_read_narrowed 2 7 (-2) uint32_t (by decide)

end Atomics

namespace EnetTime

open Atomics

theorem conv_u64 (v : Int) : uint64_t.conv v = v % 18446744073709551616 := by
  simp [CType.conv, uint64_t, toUnsigned]

theorem conv_u32 (v : Int) : uint32_t.conv v = v % 4294967296 := by
  simp [CType.conv, uint32_t, toUnsigned]

theorem ns_in_ms_eq : ns_in_ms = 1000000 := by decide

theorem want_value_mod (c : Int) : want_value c % 18446744073709551616 = want_value c := by
  simp only [want_value, conv_u64]; omega

theorem enet_time_get_at_seq (c s : Int) :
    enet_time_get_at c s s =
      if s = 0 then ⟨want_value c, time_from c (want_value c)⟩ else ⟨s, time_from c s⟩ := by
  unfold enet_time_get_at ATOMIC_READ ATOMIC_CAS
  by_cases h : s = 0
  · subst h
    simp [conv_u64, want_value_mod]
  · simp [h]

theorem time_from_want_value (c : Int) : time_from c (want_value c) = 1 := by
  simp only [time_from, result_in_ns, want_value, conv_u64, conv_u32, ns_in_ms_eq]
  omega

theorem elapsed_step (o c1 c2 : Int) (h12 : c1 ≤ c2)
    (hfit : ((c1 - o) % 18446744073709551616 + (c2 - c1)) / 1000000 < 4294967296) :
    (c2 - o) % 18446744073709551616 = (c1 - o) % 18446744073709551616 + (c2 - c1) := by
  have hsum : (c1 - o) % 18446744073709551616 + (c2 - c1) < 18446744073709551616 := by omega
  have h0 : 0 ≤ (c1 - o) % 18446744073709551616 + (c2 - c1) := by omega
  have hdecomp : c2 - o = (c1 - o) % 18446744073709551616 + (c2 - c1)
      + 18446744073709551616 * ((c1 - o) / 18446744073709551616) := by
    have := Int.emod_add_ediv (c1 - o) 18446744073709551616
    omega
  rw [hdecomp, Int.add_mul_emod_self_left, Int.emod_eq_of_lt h0 hsum]

theorem time_le (e d : Int) (he : 0 ≤ e) (hd : 0 ≤ d)
    (hfit : (e + d) / 1000000 < 4294967296) :
    e / 1000000 % 4294967296 ≤ (e + d) / 1000000 % 4294967296 := by
  omega

/-- C1: for every OS monotonic reading, a call of `enet_time_get` that finds
`start_time_ns` still 0 and whose CAS succeeds returns exactly 1, never 0. -/
theorem enet_time_get_first_call_returns_one (current_time_ns : Int) (ts : timespec) :
    (enet_time_get_at current_time_ns 0 0).result = 1 ∧
    (enet_time_get ts 0).result = 1 := by
  unfold enet_time_get
  simp only [enet_time_get_at_seq, if_true, time_from_want_value, and_self]

/-- C2: for two sequential calls of `enet_time_get` from any state of the
origin, with OS readings `c1 ≤ c2`, the later value is at least the earlier one
whenever the milliseconds elapsed since the origin at the later call (those of
the earlier call plus the time between the readings) fit in the 32-bit result. -/
theorem enet_time_get_monotonic (start_time_ns c1 c2 : Int) (h12 : c1 ≤ c2)
    (hfit : (elapsed_ns c1 start_time_ns + (c2 - c1)) / ns_in_ms < 2 ^ 32) :
    (enet_time_get_at c1 start_time_ns start_time_ns).result ≤
      (enet_time_get_at c2 (enet_time_get_at c1 start_time_ns start_time_ns).start_time_ns
        (enet_time_get_at c1 start_time_ns start_time_ns).start_time_ns).result := by
  simp only [enet_time_get_at_seq]
  simp only [elapsed_ns, result_in_ns, conv_u64, ns_in_ms_eq] at hfit
  norm_num at hfit
  by_cases h0 : start_time_ns = 0
  · simp only [h0, if_true] at hfit ⊢
    by_cases h1 : want_value c1 = 0
    · have r1 := time_from_want_value c1
      rw [h1] at r1
      simp only [h1, if_true, time_from_want_value, r1, le_refl]
    · simp only [h1, if_false]
      have key := elapsed_step (want_value c1) c1 c2 h12 hfit
      simp only [time_from, result_in_ns, conv_u64, conv_u32, ns_in_ms_eq]
      rw [key]
      exact time_le _ _ (by omega) (by omega) hfit
  · simp only [h0, if_false] at hfit ⊢
    have key := elapsed_step start_time_ns c1 c2 h12 hfit
    simp only [time_from, result_in_ns, conv_u64, conv_u32, ns_in_ms_eq]
    rw [key]
    exact time_le _ _ (by omega) (by omega) hfit

theorem enet_time_get_monotonic_witness :
    (enet_time_get_at 5000000 0 0).result ≤
      (enet_time_get_at 9000000 (enet_time_get_at 5000000 0 0).start_time_ns
        (enet_time_get_at 5000000 0 0).start_time_ns).result :=
  enet_time_get_monotonic 0 5000000 9000000 (by decide) (by decide)

theorem time_from_eq (c o : Int) :
    time_from c o = (c - o) % 18446744073709551616 / 1000000 % 4294967296 := by
  simp only [time_from, result_in_ns, conv_u64, conv_u32, ns_in_ms_eq]

theorem current_time_ns_range (ts : timespec) :
    0 ≤ current_time_ns ts ∧ current_time_ns ts < 18446744073709551616 := by
  simp only [current_time_ns, conv_u64]
  omega

theorem step_start_time_ns (s : ClockState) (a : Action) (h : s.start_time_ns ≠ 0) :
    (step s a).start_time_ns = s.start_time_ns := by
  unfold step
  split
  · rfl
  · split
    · simp only [ATOMIC_READ]
      split <;> rfl
    · rfl
  · split
    · simp [ATOMIC_CAS, conv_u64, h]
    · rfl

theorem step_inv (s : ClockState) (a : Action) (h : ClockInv s) : ClockInv (step s a) := by
  unfold step
  split
  · rename_i ts
    intro call hcall
    simp only [List.mem_append, List.mem_singleton] at hcall
    rcases hcall with hcall | hcall
    · exact h call hcall
    · subst hcall
      exact ⟨current_time_ns_range ts, fun _ _ hp => by simp at hp⟩
  · split
    · rename_i t c hget
      have hc : (⟨c, Phase.entered⟩ : Call) ∈ s.calls := List.getElem?_mem hget
      have hrange := (h _ hc).1
      simp only [ATOMIC_READ]
      split
      · intro call hcall
        rcases List.mem_or_eq_of_mem_set hcall with hcall | hcall
        · exact h call hcall
        · subst hcall
          exact ⟨hrange, fun _ _ hp => by simp at hp⟩
      · rename_i hne
        intro call hcall
        rcases List.mem_or_eq_of_mem_set hcall with hcall | hcall
        · exact h call hcall
        · subst hcall
          refine ⟨hrange, ?_⟩
          intro o r hp
          simp only [Phase.returned.injEq] at hp
          obtain ⟨ho, hr⟩ := hp
          subst ho
          subst hr
          exact ⟨time_from_eq _ _, fun _ => rfl, fun h0 => absurd h0 hne⟩
    · exact h
  · split
    · rename_i t c hget
      have hc : (⟨c, Phase.saw_zero⟩ : Call) ∈ s.calls := List.getElem?_mem hget
      have hrange := (h _ hc).1
      simp only at hrange
      by_cases hz : s.start_time_ns = 0
      · intro call hcall
        simp only [ATOMIC_CAS, conv_u64, hz, Int.zero_emod, if_true, want_value_mod] at hcall ⊢
        rcases List.mem_or_eq_of_mem_set hcall with hcall | hcall
        · refine ⟨(h call hcall).1, ?_⟩
          intro o r hp
          obtain ⟨h1, h2, h3⟩ := (h call hcall).2 o r hp
          refine ⟨h1, ?_, h3⟩
          intro ho
          have := h2 ho
          rw [hz] at this
          exact absurd this.symm ho
        · subst hcall
          refine ⟨hrange, ?_⟩
          intro o r hp
          simp only [Phase.returned.injEq] at hp
          obtain ⟨ho, hr⟩ := hp
          subst ho
          subst hr
          refine ⟨time_from_eq _ _, fun _ => rfl, ?_⟩
          intro h0
          simp only [want_value, conv_u64, ns_in_ms_eq] at h0
          show c = 1000000
          omega
      · intro call hcall
        have hne : ¬ s.start_time_ns = 0 % 18446744073709551616 := by simpa using hz
        simp only [ATOMIC_CAS, conv_u64, hne, hz, if_false] at hcall ⊢
        rcases List.mem_or_eq_of_mem_set hcall with hcall | hcall
        · exact h call hcall
        · subst hcall
          refine ⟨hrange, ?_⟩
          intro o r hp
          simp only [Phase.returned.injEq] at hp
          obtain ⟨ho, hr⟩ := hp
          subst ho
          subst hr
          exact ⟨time_from_eq _ _, fun _ => rfl, fun h0 => absurd h0 hz⟩
    · exact h

theorem run_append (schedule more : List Action) :
    run (schedule ++ more) = more.foldl step (run schedule) := by
  simp [run, List.foldl_append]

theorem foldl_start_time_ns (more : List Action) :
    ∀ s : ClockState, s.start_time_ns ≠ 0 →
      (more.foldl step s).start_time_ns = s.start_time_ns := by
  induction more with
  | nil => intro s _; rfl
  | cons a rest ih =>
    intro s h
    have h1 := step_start_time_ns s a h
    simp only [List.foldl_cons]
    rw [ih (step s a) (by rw [h1]; exact h), h1]

theorem run_inv_clock (schedule : List Action) : ClockInv (run schedule) := by
  unfold run
  have hinit : ClockInv init := by
    intro call hcall
    simp [init] at hcall
  generalize init = s at hinit
  induction schedule generalizing s with
  | nil => simpa using hinit
  | cons a rest ih => exact ih _ (step_inv s a hinit)

/-- C3, as stated, fails: a first call whose reading is exactly 1 ms finds the
origin 0, its CAS observes 0 and installs the candidate 0, and it computes its
result from 0; the next call, at 9 ms, again finds 0, installs 8000000 and
computes its result from that. The origin was installed twice and the two
callers do not agree on it. -/
theorem enet_time_get_origin_unsettled_at_one_ms :
    run [.enter ⟨0, 1000000⟩, .atomic_read 0, .atomic_cas 0,
        .enter ⟨0, 9000000⟩, .atomic_read 1, .atomic_cas 1]
      = ⟨8000000, [⟨1000000, .returned 0 1⟩, ⟨9000000, .returned 8000000 1⟩]⟩ ∧
    offsets (run [.enter ⟨0, 1000000⟩, .atomic_read 0, .atomic_cas 0,
        .enter ⟨0, 9000000⟩, .atomic_read 1, .atomic_cas 1]) = [0, 8000000] := by
  decide

/-- C3, amended: a call of `enet_time_get` that finds the origin nonzero, on its
atomic read or as the value its failed CAS returns, leaves `start_time_ns`
unchanged and computes its result from the value it observed; only a call whose
CAS observes 0 installs its own candidate, and its result is 1. Over every
interleaving of calls from the unset origin: once `start_time_ns` is nonzero it
never changes again; every call that has returned computed its result from the
origin it used, which is the content of `start_time_ns` unless the reading of
the call was exactly 1 ms (then it used its candidate 0 and left the origin
unset); so all callers whose reading is not exactly 1 ms agree on one origin. -/
theorem enet_time_get_origin_settled :
    (∀ current_time_ns mem_at_read mem_at_cas : Int,
      (mem_at_read ≠ 0 →
        enet_time_get_at current_time_ns mem_at_read mem_at_cas
          = ⟨mem_at_read,
              (current_time_ns - mem_at_read) % 18446744073709551616 / 1000000
                % 4294967296⟩) ∧
      (mem_at_read = 0 → mem_at_cas ≠ 0 →
        enet_time_get_at current_time_ns mem_at_read mem_at_cas
          = ⟨mem_at_cas,
              (current_time_ns - mem_at_cas) % 18446744073709551616 / 1000000
                % 4294967296⟩) ∧
      (mem_at_read = 0 → mem_at_cas = 0 →
        enet_time_get_at current_time_ns mem_at_read mem_at_cas
          = ⟨(current_time_ns - 1000000) % 18446744073709551616, 1⟩)) ∧
    (∀ schedule more : List Action, (run schedule).start_time_ns ≠ 0 →
      (run (schedule ++ more)).start_time_ns = (run schedule).start_time_ns) ∧
    (∀ (schedule : List Action) (call : Call) (offset_ns result : Int),
      call ∈ (run schedule).calls → call.phase = .returned offset_ns result →
      result = (call.current_time_ns - offset_ns) % 18446744073709551616 / 1000000
        % 4294967296 ∧
      (offset_ns ≠ 0 → (run schedule).start_time_ns = offset_ns) ∧
      (offset_ns = 0 → call.current_time_ns = 1000000)) ∧
    (∀ (schedule : List Action) (a b : Call) (offset_a result_a offset_b result_b : Int),
      a ∈ (run schedule).calls → b ∈ (run schedule).calls →
      a.phase = .returned offset_a result_a → b.phase = .returned offset_b result_b →
      a.current_time_ns ≠ 1000000 → b.current_time_ns ≠ 1000000 →
      offset_a = offset_b) := by
  refine ⟨?_, ?_, ?_, ?_⟩
  · intro c m0 m1
    refine ⟨?_, ?_, ?_⟩
    · intro h
      simp [enet_time_get_at, ATOMIC_READ, h, time_from_eq]
    · intro h0 h1
      simp [enet_time_get_at, ATOMIC_READ, ATOMIC_CAS, h0, h1, conv_u64, time_from_eq]
    · intro h0 h1
      have hw : want_value c = (c - 1000000) % 18446744073709551616 := by
        simp only [want_value, conv_u64, ns_in_ms_eq]
        norm_num
      have h1w := time_from_want_value c
      rw [hw] at h1w
      have hmod := want_value_mod c
      rw [hw] at hmod
      simp [enet_time_get_at, ATOMIC_READ, ATOMIC_CAS, h0, h1, conv_u64, hw, h1w, hmod]
  · intro schedule more h
    rw [run_append]
    exact foldl_start_time_ns more _ h
  · intro schedule call offset_ns result hcall hphase
    exact (run_inv_clock schedule call hcall).2 offset_ns result hphase
  · intro schedule a b oa ra ob rb ha hb hpa hpb hna hnb
    obtain ⟨_, ha2, ha3⟩ := (run_inv_clock schedule a ha).2 oa ra hpa
    obtain ⟨_, hb2, hb3⟩ := (run_inv_clock schedule b hb).2 ob rb hpb
    have hoa : oa ≠ 0 := fun h => hna (ha3 h)
    have hob : ob ≠ 0 := fun h => hnb (hb3 h)
    rw [← ha2 hoa, ← hb2 hob]

theorem enet_time_get_origin_settled_witness :
    enet_time_get_at 9000000 4000000 4000000
      = ⟨4000000, (9000000 - 4000000) % 18446744073709551616 / 1000000 % 4294967296⟩ ∧
    enet_time_get_at 9000000 0 4000000
      = ⟨4000000, (9000000 - 4000000) % 18446744073709551616 / 1000000 % 4294967296⟩ ∧
    enet_time_get_at 9000000 0 0 = ⟨(9000000 - 1000000) % 18446744073709551616, 1⟩ ∧
    (run ([.enter ⟨0, 5000000⟩, .atomic_read 0, .enter ⟨0, 9000000⟩, .atomic_cas 0]
        ++ [.atomic_read 1])).start_time_ns
      = (run [.enter ⟨0, 5000000⟩, .atomic_read 0, .enter ⟨0, 9000000⟩,
          .atomic_cas 0]).start_time_ns ∧
    (run [.enter ⟨0, 5000000⟩, .atomic_read 0, .enter ⟨0, 9000000⟩, .atomic_cas 0,
        .atomic_read 1]).start_time_ns = 4000000 :=
  ⟨(enet_time_get_origin_settled.1 9000000 4000000 4000000).1 (by decide),
   (enet_time_get_origin_settled.1 9000000 0 4000000).2.1 rfl (by decide),
   (enet_time_get_origin_settled.1 9000000 0 0).2.2 rfl rfl,
   enet_time_get_origin_settled.2.1
     [.enter ⟨0, 5000000⟩, .atomic_read 0, .enter ⟨0, 9000000⟩, .atomic_cas 0]
     [.atomic_read 1] (by decide),
   (enet_time_get_origin_settled.2.2.1
     [.enter ⟨0, 5000000⟩, .atomic_read 0, .enter ⟨0, 9000000⟩, .atomic_cas 0,
       .atomic_read 1]
     ⟨9000000, .returned 4000000 5⟩ 4000000 5 (by decide) rfl).2.1 (by decide)⟩

end EnetTime

namespace Unix.NativeClient

/-! ## The pool flags under concurrent calls -/

theorem countP_set_owns (l : List SendCall) (t : Nat) (c c' : SendCall)
    (hget : l[t]? = some c) (i : Nat) :
    (l.set t c').countP (owns i) + (if owns i c = true then 1 else 0)
      = l.countP (owns i) + (if owns i c' = true then 1 else 0) := by
  rw [List.getElem?_eq_some_iff] at hget
  obtain ⟨ht, hget⟩ := hget
  rw [List.countP_set _ _ _ _ ht, hget]
  have hpos : (if owns i c = true then 1 else 0) ≤ l.countP (owns i) := by
    split_ifs with hown
    · exact List.countP_pos_iff.mpr ⟨c, hget ▸ List.getElem_mem ht, hown⟩
    · exact Nat.zero_le _
  omega

theorem step_preserves (NDEBUG : Bool) (s : PoolState) (a : Action) (h : PoolInv s) :
    PoolInv (step NDEBUG s a) := by
  unfold step
  by_cases hab : s.aborted = true
  · simp [hab, h]
  have hab2 : s.aborted = false := by simpa using hab
  simp only [hab2, Bool.false_eq_true, if_false]
  cases a with
  | enter =>
    intro i
    have := h i
    simpa [List.countP_append, owns] using this
  | try_acquire t =>
    cases hc : s.calls[t]? with
    | none => simpa [hc] using h
    | some c =>
      simp only [hc]
      by_cases hph : c.phase = Phase.acquiring
      · simp only [hph, if_true]
        have hown : ∀ i, owns i c = false := by intro i; simp [owns, hph]
        by_cases hfree : s.free c.buff_idx = 0
        · simp only [ATOMIC_CAS, hfree, if_true]
          intro i
          have hi := h i
          have key := countP_set_owns s.calls t c ⟨Phase.owning, c.buff_idx, c.num_tries⟩ hc i
          rw [hown i] at key
          show set_flag s.free c.buff_idx 1 i = _ ∧ set_flag s.free c.buff_idx 1 i ≤ 1
          by_cases hidx : i = c.buff_idx
          · subst hidx
            have hnew : owns c.buff_idx ⟨Phase.owning, c.buff_idx, c.num_tries⟩ = true := by
              simp [owns]
            rw [hnew] at key
            simp only [set_flag, if_true]
            simp only [Bool.false_eq_true, if_false, if_true, Nat.add_zero] at key
            omega
          · have hnew : owns i ⟨Phase.owning, c.buff_idx, c.num_tries⟩ = false := by
              simp [owns]; exact fun e => hidx e.symm
            rw [hnew] at key
            simp only [set_flag, hidx, if_false]
            simp at key
            omega
        · have hcas : (ATOMIC_CAS (s.free c.buff_idx) 0 1).2 = false := by
            simp [ATOMIC_CAS, hfree]
          simp only [hcas]
          by_cases hassert : c.num_tries % NUM_BUFFERS = 0 ∧ NDEBUG = false
          · simp only [hassert, and_self, if_true]
            exact h
          · simp only [hassert, if_false]
            intro i
            have hi := h i
            have key := countP_set_owns s.calls t c
              ⟨Phase.acquiring, (c.buff_idx + 1) % NUM_BUFFERS, c.num_tries + 1⟩ hc i
            have hnew :
                owns i ⟨Phase.acquiring, (c.buff_idx + 1) % NUM_BUFFERS, c.num_tries + 1⟩
                  = false := by simp [owns]
            rw [hown i, hnew] at key
            simp at key
            show s.free i = _ ∧ s.free i ≤ 1
            simp only [Bool.false_eq_true, if_false]
            omega
      · simpa [hph] using h
  | release t =>
    cases hc : s.calls[t]? with
    | none => simpa [hc] using h
    | some c =>
      simp only [hc]
      by_cases hph : c.phase = Phase.owning
      · simp only [hph, if_true]
        have hnew : ∀ i, owns i ⟨Phase.returned, c.buff_idx, c.num_tries⟩ = false := by
          intro i; simp [owns]
        have hown : owns c.buff_idx c = true := by simp [owns, hph]
        have key0 := countP_set_owns s.calls t c ⟨Phase.returned, c.buff_idx, c.num_tries⟩ hc
          c.buff_idx
        rw [hown, hnew] at key0
        simp at key0
        have hone : s.free c.buff_idx = 1 := by have := h c.buff_idx; omega
        intro i
        have hi := h i
        show set_flag s.free c.buff_idx (ATOMIC_CAS (s.free c.buff_idx) 1 0).1 i = _ ∧
          set_flag s.free c.buff_idx (ATOMIC_CAS (s.free c.buff_idx) 1 0).1 i ≤ 1
        simp only [ATOMIC_CAS, hone, if_true]
        by_cases hidx : i = c.buff_idx
        · subst hidx
          simp only [set_flag, if_true]
          omega
        · have key := countP_set_owns s.calls t c ⟨Phase.returned, c.buff_idx, c.num_tries⟩ hc i
          have hown2 : owns i c = false := by
            simp [owns, hph]; exact fun e => hidx e.symm
          rw [hown2, hnew] at key
          simp at key
          simp only [set_flag, hidx, if_false]
          omega
      · simpa [hph] using h

theorem run_inv (NDEBUG : Bool) (schedule : List Action) : PoolInv (run NDEBUG schedule) := by
  unfold run
  have hinit : PoolInv init := by intro i; simp [init]
  generalize init = s at hinit
  induction schedule generalizing s with
  | nil => simpa using hinit
  | cons a tl ih => exact ih _ (step_preserves NDEBUG s a hinit)

/-- C6: in every state the pool reaches from its zero-initialised start by
atomic steps (a call enters, a call executes the acquiring CAS, an owner
executes the releasing CAS), no slot is owned by two in-flight calls of
`enet_socket_send`, and the flag of a slot is 1 if and only if exactly one
in-flight call owns it. -/
theorem pool_mutual_exclusion (NDEBUG : Bool) (schedule : List Action) (i : Nat) :
    (owners (run NDEBUG schedule) i).length ≤ 1 ∧
    ((run NDEBUG schedule).free i = 1 ↔ (owners (run NDEBUG schedule) i).length = 1) := by
  have h := run_inv NDEBUG schedule i
  unfold owners
  rw [← List.countP_eq_length_filter]
  omega

end Unix.NativeClient

namespace Unix.NativeClient

/-! ## One call of the pool-based `enet_socket_send` -/

theorem copy_loop_spec (buffers : List ENetBuffer) :
    ∀ (send_buff : Nat → Nat) (sendsize : Nat),
      sendsize + (buffers.map ENetBuffer.dataLength).sum ≤ BUFFER_SIZE →
      ∃ buf, copy_loop send_buff sendsize buffers
            = (buf, sendsize + (buffers.map ENetBuffer.dataLength).sum) ∧
        (∀ j, j < sendsize → buf j = send_buff j) ∧
        (∀ j, j < (buffers.map ENetBuffer.dataLength).sum →
          buf (sendsize + j) = (buffers.map ENetBuffer.data).flatten.getD j 0) := by
  induction buffers with
  | nil =>
    intro send_buff sendsize _
    exact ⟨send_buff, by simp [copy_loop], fun _ _ => rfl, by simp⟩
  | cons b rest ih =>
    intro send_buff sendsize h
    simp only [List.map_cons, List.sum_cons] at h ⊢
    have hB : BUFFER_SIZE = 32768 := by decide
    have hlen : b.dataLength = b.data.length := rfl
    have hmod : (sendsize + b.dataLength) % 2 ^ 32 = sendsize + b.dataLength := by
      apply Nat.mod_eq_of_lt
      norm_num
      omega
    obtain ⟨buf, hcopy, hpre, hdata⟩ :=
      ih (memcpy send_buff sendsize b.data) (sendsize + b.dataLength) (by omega)
    refine ⟨buf, ?_, ?_, ?_⟩
    · simp only [copy_loop, hmod, hcopy]
      simp [Nat.add_assoc]
    · intro j hj
      rw [hpre j (by omega)]
      simp only [memcpy]
      rw [if_neg (by omega)]
    · intro j hj
      simp only [List.flatten_cons]
      by_cases hjb : j < b.dataLength
      · rw [hpre (sendsize + j) (by omega)]
        simp only [memcpy]
        rw [if_pos ⟨by omega, by omega⟩, List.getD_append _ _ _ _ (hlen ▸ hjb)]
        congr 1
        omega
      · have hdj := hdata (j - b.dataLength) (by omega)
        rw [List.getD_append_right _ _ _ _ (by omega)]
        have e : sendsize + j = sendsize + b.dataLength + (j - b.dataLength) := by omega
        rw [e, hdj]
        rfl

theorem copy_loop_from_zero (send_buff : Nat → Nat) (buffers : List ENetBuffer)
    (hfit : (buffers.map ENetBuffer.dataLength).sum ≤ BUFFER_SIZE) :
    ∃ buf, copy_loop send_buff 0 buffers
          = (buf, (buffers.map ENetBuffer.dataLength).sum) ∧
      (List.range (buffers.map ENetBuffer.dataLength).sum).map buf
          = (buffers.map ENetBuffer.data).flatten := by
  obtain ⟨buf, hcopy, _, hdata⟩ := copy_loop_spec buffers send_buff 0 (by omega)
  refine ⟨buf, by simpa using hcopy, ?_⟩
  have hlen : (buffers.map ENetBuffer.data).flatten.length
      = (buffers.map ENetBuffer.dataLength).sum := by
    rw [List.length_flatten, List.map_map]
    rfl
  apply List.ext_getElem
  · simp [hlen]
  · intro n h1 h2
    have hn : n < (buffers.map ENetBuffer.dataLength).sum := by simpa using h1
    have := hdata n hn
    rw [List.getD_eq_getElem _ _ h2] at this
    simpa using this

theorem copy_loop_indices_in_bounds (buffers : List ENetBuffer) :
    ∀ sendsize, sendsize + (buffers.map ENetBuffer.dataLength).sum ≤ BUFFER_SIZE →
      ∀ j ∈ copy_loop_indices sendsize buffers, j < BUFFER_SIZE := by
  have hB : BUFFER_SIZE = 32768 := by decide
  induction buffers with
  | nil => intro _ _ j hj; simp [copy_loop_indices] at hj
  | cons b rest ih =>
    intro sendsize h j hj
    simp only [List.map_cons, List.sum_cons] at h
    have hmod : (sendsize + b.dataLength) % 2 ^ 32 = sendsize + b.dataLength := by
      apply Nat.mod_eq_of_lt
      norm_num
      omega
    simp only [copy_loop_indices, List.mem_append, hmod] at hj
    rcases hj with hj | hj
    · rw [List.mem_range'_1] at hj
      omega
    · exact ih _ (by omega) j hj

theorem store_byte_free_in_bounds (pool : Pool) (buff_idx j byte : Nat)
    (hj : j < BUFFER_SIZE) (i : Nat) :
    (store_byte pool buff_idx j byte i).free = (pool i).free := by
  simp only [store_byte, hj, if_true, set_buffer]
  split_ifs with h
  · rw [h]
  · rfl

theorem store_bytes_free_in_bounds (buff_idx : Nat) (send_buff : Nat → Nat)
    (indices : List Nat) :
    ∀ (pool : Pool), (∀ j ∈ indices, j < BUFFER_SIZE) →
      ∀ i, (store_bytes pool buff_idx send_buff indices i).free = (pool i).free := by
  induction indices with
  | nil => intro pool _ i; rfl
  | cons j rest ih =>
    intro pool h i
    have h1 := ih (store_byte pool buff_idx j (send_buff j))
      (fun x hx => h x (List.mem_cons_of_mem _ hx)) i
    simp only [store_bytes, List.foldl_cons] at h1 ⊢
    rw [h1, store_byte_free_in_bounds pool buff_idx j _ (h j (List.mem_cons_self _ _))]

theorem store_byte_free_own (pool : Pool) (buff_idx j byte : Nat) :
    (store_byte pool buff_idx j byte buff_idx).free = (pool buff_idx).free := by
  simp only [store_byte]
  split_ifs with h1 h2
  · simp [set_buffer]
  · have hne : ¬ buff_idx = buff_idx + 1 + (j - BUFFER_SIZE) / SLOT_SIZE := by
      generalize (j - BUFFER_SIZE) / SLOT_SIZE = q
      omega
    simp [set_free, hne]
  · have hne : ¬ buff_idx = buff_idx + 1 + (j - BUFFER_SIZE) / SLOT_SIZE := by
      generalize (j - BUFFER_SIZE) / SLOT_SIZE = q
      omega
    simp [set_buffer, hne]

theorem store_bytes_free_own (buff_idx : Nat) (send_buff : Nat → Nat) (indices : List Nat) :
    ∀ (pool : Pool),
      (store_bytes pool buff_idx send_buff indices buff_idx).free = (pool buff_idx).free := by
  induction indices with
  | nil => intro pool; rfl
  | cons j rest ih =>
    intro pool
    have h1 := ih (store_byte pool buff_idx j (send_buff j))
    simp only [store_bytes, List.foldl_cons] at h1 ⊢
    rw [h1, store_byte_free_own]

theorem acquire_loop_scan (NDEBUG : Bool) (pool : Pool) (k : Nat) (hk : k < NUM_BUFFERS)
    (hfree : (pool k).free = 0) :
    ∀ (d idx fuel : Nat), idx + d = k → d < fuel →
      (∀ j, idx ≤ j → j < k → (pool j).free ≠ 0) →
      acquire_loop NDEBUG pool fuel idx (idx + 1) 0
        = .acquired (set_free pool k 1) k (k + 1) 0 := by
  have hN : NUM_BUFFERS = 20 := rfl
  intro d
  induction d with
  | zero =>
    intro idx fuel hidx hfuel _
    obtain ⟨f, rfl⟩ : ∃ f, fuel = f + 1 := ⟨fuel - 1, by omega⟩
    have : idx = k := by omega
    subst this
    simp [acquire_loop, ATOMIC_CAS, hfree]
  | succ d ih =>
    intro idx fuel hidx hfuel hbusy
    obtain ⟨f, rfl⟩ : ∃ f, fuel = f + 1 := ⟨fuel - 1, by omega⟩
    have hb : (pool idx).free ≠ 0 := hbusy idx (le_refl _) (by omega)
    have h1 : (idx + 1) % NUM_BUFFERS = idx + 1 := Nat.mod_eq_of_lt (by omega)
    have h2 : ¬ (idx + 1) % NUM_BUFFERS = 0 := by omega
    have := ih (idx + 1) f (by omega) (by omega) (fun j hj hjk => hbusy j (by omega) hjk)
    simp only [acquire_loop, ATOMIC_CAS, hb, if_false, h1, h2]
    simpa using this

theorem acquire_loop_first_free (NDEBUG : Bool) (pool : Pool) (fuel : Nat)
    (hfuel : NUM_BUFFERS ≤ fuel) (hsome : ∃ i, i < NUM_BUFFERS ∧ (pool i).free = 0) :
    ∃ k, k < NUM_BUFFERS ∧ (pool k).free = 0 ∧ (∀ j, j < k → (pool j).free ≠ 0) ∧
      acquire_loop NDEBUG pool fuel 0 1 0 = .acquired (set_free pool k 1) k (k + 1) 0 := by
  classical
  have hk := Nat.find_spec hsome
  refine ⟨Nat.find hsome, hk.1, hk.2, ?_, ?_⟩
  · intro j hj hfree
    exact Nat.find_min hsome hj ⟨by omega, hfree⟩
  · have := acquire_loop_scan NDEBUG pool (Nat.find hsome) hk.1 hk.2 (Nat.find hsome) 0 fuel
      (by omega) (by omega) (fun j _ hj hfree => Nat.find_min hsome hj ⟨by omega, hfree⟩)
    simpa using this

theorem acquire_loop_acquired (NDEBUG : Bool) (pool : Pool) :
    ∀ (fuel buff_idx num_tries sleeps : Nat) (pool1 : Pool) (k tries n : Nat),
      acquire_loop NDEBUG pool fuel buff_idx num_tries sleeps = .acquired pool1 k tries n →
      (pool k).free = 0 ∧ pool1 = set_free pool k 1 := by
  intro fuel
  induction fuel with
  | zero =>
    intro buff_idx num_tries sleeps pool1 k tries n h
    simp [acquire_loop] at h
  | succ f ih =>
    intro buff_idx num_tries sleeps pool1 k tries n h
    by_cases hfree : (pool buff_idx).free = 0
    · simp only [acquire_loop, ATOMIC_CAS, hfree, if_true, Acquire.acquired.injEq] at h
      obtain ⟨h1, h2, _, _⟩ := h
      subst h2
      exact ⟨hfree, h1.symm⟩
    · simp only [acquire_loop, ATOMIC_CAS, hfree, if_false, Bool.false_eq_true] at h
      split_ifs at h
      · exact ih _ _ _ _ _ _ _ h
      · exact ih _ _ _ _ _ _ _ h

theorem enet_socket_send_eq (EWOULDBLOCK : Int) (NDEBUG : Bool)
    (sendto : (Nat → Nat) → Nat → Int × Int) (fuel : Nat) (pool : Pool)
    (buffers : List ENetBuffer) (hfuel : NUM_BUFFERS ≤ fuel)
    (hsome : ∃ i, i < NUM_BUFFERS ∧ (pool i).free = 0) :
    ∃ k, k < NUM_BUFFERS ∧ (pool k).free = 0 ∧ (∀ j, j < k → (pool j).free ≠ 0) ∧
      acquire_loop NDEBUG pool fuel 0 1 0 = .acquired (set_free pool k 1) k (k + 1) 0 ∧
      enet_socket_send EWOULDBLOCK NDEBUG sendto fuel pool buffers
        = .returned
            (set_free
              (store_bytes (set_free pool k 1) k
                (copy_loop (load_byte (set_free pool k 1) k) 0 buffers).1
                (copy_loop_indices 0 buffers)) k 0)
            (if (sendto (copy_loop (load_byte (set_free pool k 1) k) 0 buffers).1
                  (copy_loop (load_byte (set_free pool k 1) k) 0 buffers).2).1 = -1 then
              if (sendto (copy_loop (load_byte (set_free pool k 1) k) 0 buffers).1
                  (copy_loop (load_byte (set_free pool k 1) k) 0 buffers).2).2
                    = EWOULDBLOCK then 0
              else -1
            else int.conv
              (sendto (copy_loop (load_byte (set_free pool k 1) k) 0 buffers).1
                (copy_loop (load_byte (set_free pool k 1) k) 0 buffers).2).1) := by
  obtain ⟨k, hk, hfree, hlow, hacq⟩ := acquire_loop_first_free NDEBUG pool fuel hfuel hsome
  refine ⟨k, hk, hfree, hlow, hacq, ?_⟩
  have hown : (store_bytes (set_free pool k 1) k
      (copy_loop (load_byte (set_free pool k 1) k) 0 buffers).1
      (copy_loop_indices 0 buffers) k).free = 1 := by
    rw [store_bytes_free_own]
    simp [set_free]
  simp only [enet_socket_send, hacq, hown, ATOMIC_CAS, if_true]
  split_ifs <;> rfl

/-- C7: for every fragment list whose lengths sum to at most `BUFFER_SIZE`, the
copy loop of the pool-based `enet_socket_send` ends with `sendsize` equal to
the sum of the fragment lengths and the first `sendsize` bytes of the buffer
equal to the concatenation of the fragments in list order. -/
theorem copy_loop_flattens (send_buff : Nat → Nat) (buffers : List ENetBuffer)
    (hfit : (buffers.map ENetBuffer.dataLength).sum ≤ BUFFER_SIZE) :
    ∃ buf sendsize, copy_loop send_buff 0 buffers = (buf, sendsize) ∧
      sendsize = (buffers.map ENetBuffer.dataLength).sum ∧
      (List.range sendsize).map buf = (buffers.map ENetBuffer.data).flatten := by
  obtain ⟨buf, hcopy, hdata⟩ := copy_loop_from_zero send_buff buffers hfit
  exact ⟨buf, _, hcopy, rfl, hdata⟩

theorem copy_loop_flattens_witness :
    ∃ buf sendsize,
      copy_loop (fun _ => 0) 0 [⟨[97, 98]⟩, ⟨[99, 100, 101]⟩] = (buf, sendsize) ∧
      sendsize = 5 ∧ (List.range sendsize).map buf = [97, 98, 99, 100, 101] :=
  copy_loop_flattens (fun _ => 0) [⟨[97, 98]⟩, ⟨[99, 100, 101]⟩] (by decide)

theorem enet_socket_send_returned (EWOULDBLOCK : Int) (NDEBUG : Bool)
    (sendto : (Nat → Nat) → Nat → Int × Int) (fuel : Nat) (pool : Pool)
    (buffers : List ENetBuffer) (pool2 : Pool) (result : Int)
    (hret : enet_socket_send EWOULDBLOCK NDEBUG sendto fuel pool buffers
      = .returned pool2 result) :
    ∃ k tries sleeps,
      acquire_loop NDEBUG pool fuel 0 1 0 = .acquired (set_free pool k 1) k tries sleeps ∧
      pool2 = set_free
        (store_bytes (set_free pool k 1) k
          (copy_loop (load_byte (set_free pool k 1) k) 0 buffers).1
          (copy_loop_indices 0 buffers)) k 0 := by
  unfold enet_socket_send at hret
  cases hacq : acquire_loop NDEBUG pool fuel 0 1 0 with
  | out_of_fuel => simp [hacq] at hret
  | assert_failed n => simp [hacq] at hret
  | acquired pool1 k tries sleeps =>
    obtain ⟨_, hpool1⟩ := acquire_loop_acquired NDEBUG pool _ _ _ _ _ _ _ _ hacq
    subst hpool1
    refine ⟨k, tries, sleeps, rfl, ?_⟩
    have hown : (store_bytes (set_free pool k 1) k
        (copy_loop (load_byte (set_free pool k 1) k) 0 buffers).1
        (copy_loop_indices 0 buffers) k).free = 1 := by
      rw [store_bytes_free_own]
      simp [set_free]
    simp only [hacq, hown, ATOMIC_CAS, if_true] at hret
    split_ifs at hret <;>
      · simp only [SendResult.returned.injEq] at hret
        exact hret.1.symm

theorem copy_loop_indices_spill (n : Nat) (hn : n < 2 ^ 32) :
    copy_loop_indices 0 [⟨List.replicate n 0⟩, ⟨[1]⟩] = List.range' 0 n ++ [n] := by
  have hB : (0 + n) % 2 ^ 32 = n := by
    rw [Nat.zero_add]
    exact Nat.mod_eq_of_lt hn
  simp only [copy_loop_indices, ENetBuffer.dataLength, List.length_replicate, hB,
    List.length_cons, List.length_nil, List.append_nil]
  congr 1

theorem copy_loop_spill (send_buff : Nat → Nat) (n : Nat) (hn : n < 2 ^ 32) :
    (copy_loop send_buff 0 [⟨List.replicate n 0⟩, ⟨[1]⟩]).1 n = 1 := by
  have hB : (0 + n) % 2 ^ 32 = n := by
    rw [Nat.zero_add]
    exact Nat.mod_eq_of_lt hn
  simp only [copy_loop, ENetBuffer.dataLength, List.length_replicate, hB]
  simp [memcpy]

theorem store_byte_next_flag (pool : Pool) (buff_idx byte : Nat) :
    (store_byte pool buff_idx BUFFER_SIZE byte (buff_idx + 1)).free
      = set_flag_byte (pool (buff_idx + 1)).free 0 byte := by
  unfold store_byte
  rw [if_neg (Nat.lt_irrefl _)]
  simp only [Nat.sub_self, Nat.zero_div, Nat.zero_mod, Nat.add_zero]
  rw [if_pos (by decide : 0 < 4)]
  simp [set_free]

theorem store_bytes_spill (pool : Pool) (buff_idx : Nat) (send_buff : Nat → Nat) :
    (store_bytes pool buff_idx send_buff (List.range' 0 BUFFER_SIZE ++ [BUFFER_SIZE])
        (buff_idx + 1)).free
      = set_flag_byte (pool (buff_idx + 1)).free 0 (send_buff BUFFER_SIZE) := by
  have hin : ∀ j ∈ List.range' 0 BUFFER_SIZE, j < BUFFER_SIZE := by
    intro j hj
    rw [List.mem_range'_1] at hj
    omega
  have happ : store_bytes pool buff_idx send_buff (List.range' 0 BUFFER_SIZE ++ [BUFFER_SIZE])
      = store_byte (store_bytes pool buff_idx send_buff (List.range' 0 BUFFER_SIZE))
          buff_idx BUFFER_SIZE (send_buff BUFFER_SIZE) := by
    unfold store_bytes
    rw [List.foldl_append]
    rfl
  rw [happ, store_byte_next_flag,
    store_bytes_free_in_bounds buff_idx send_buff _ pool hin (buff_idx + 1)]

/-- C8, as stated, fails: with every slot free, fragments of `BUFFER_SIZE`
bytes and of one byte of value 1 make the call acquire slot 0 and copy the last
byte behind its buffer, onto the flag of slot 1; the call returns with that
flag changed from 0 to 1. -/
theorem enet_socket_send_overruns_next_flag :
    ((fun _ => ⟨0, fun _ => 0⟩ : Pool) 1).free = 0 ∧
    ∃ pool2 result,
      enet_socket_send 11 true (fun _ _ => (1, 0)) 20 (fun _ => ⟨0, fun _ => 0⟩)
          [⟨List.replicate BUFFER_SIZE 0⟩, ⟨[1]⟩]
        = .returned pool2 result ∧
      (pool2 1).free = 1 := by
  refine ⟨rfl, ?_⟩
  obtain ⟨k, _, _, hlow, _, hsend⟩ :=
    enet_socket_send_eq 11 true (fun _ _ => (1, 0)) 20 (fun _ => ⟨0, fun _ => 0⟩)
      [⟨List.replicate BUFFER_SIZE 0⟩, ⟨[1]⟩] (by decide) ⟨0, by decide, rfl⟩
  have hk : k = 0 := by
    by_contra h
    exact hlow 0 (Nat.pos_of_ne_zero h) rfl
  subst hk
  refine ⟨_, _, hsend, ?_⟩
  have hlt : BUFFER_SIZE < 2 ^ 32 := by decide
  have hspill := store_bytes_spill (set_free (fun _ => ⟨0, fun _ => 0⟩) 0 1) 0
    (copy_loop (load_byte (set_free (fun _ => ⟨0, fun _ => 0⟩) 0 1) 0) 0
      [⟨List.replicate BUFFER_SIZE 0⟩, ⟨[1]⟩]).1
  rw [copy_loop_spill _ BUFFER_SIZE hlt] at hspill
  rw [copy_loop_indices_spill BUFFER_SIZE hlt]
  have hrel : ∀ (p : Pool), (set_free p 0 0 1).free = (p 1).free := by
    intro p
    simp [set_free]
  rw [hrel, hspill]
  simp [set_free, set_flag_byte, flag_byte]

/-- C8, amended: whatever `sendto` answers, a call of the pool-based
`enet_socket_send` that finds a free slot returns, and whenever a call returns,
the flag of the slot it acquired is back at 0; if the fragment lengths sum to
at most `BUFFER_SIZE`, the flags of all other slots are as they were before the
call. -/
theorem enet_socket_send_releases_slot (EWOULDBLOCK : Int) (NDEBUG : Bool)
    (sendto : (Nat → Nat) → Nat → Int × Int) (fuel : Nat) (pool : Pool)
    (buffers : List ENetBuffer) :
    (NUM_BUFFERS ≤ fuel → (∃ i, i < NUM_BUFFERS ∧ (pool i).free = 0) →
      ∃ pool2 result,
        enet_socket_send EWOULDBLOCK NDEBUG sendto fuel pool buffers
          = .returned pool2 result) ∧
    (∀ pool2 result,
      enet_socket_send EWOULDBLOCK NDEBUG sendto fuel pool buffers
        = .returned pool2 result →
      ∃ k pool1 tries sleeps,
        acquire_loop NDEBUG pool fuel 0 1 0 = .acquired pool1 k tries sleeps ∧
        (pool2 k).free = 0 ∧
        ((buffers.map ENetBuffer.dataLength).sum ≤ BUFFER_SIZE →
          ∀ j, j ≠ k → (pool2 j).free = (pool j).free)) := by
  constructor
  · intro hfuel hsome
    obtain ⟨k, _, _, _, _, hsend⟩ :=
      enet_socket_send_eq EWOULDBLOCK NDEBUG sendto fuel pool buffers hfuel hsome
    exact ⟨_, _, hsend⟩
  · intro pool2 result hret
    obtain ⟨k, tries, sleeps, hacq, hpool2⟩ :=
      enet_socket_send_returned EWOULDBLOCK NDEBUG sendto fuel pool buffers pool2 result hret
    subst hpool2
    refine ⟨k, _, tries, sleeps, hacq, by simp [set_free], ?_⟩
    intro hfit j hj
    have hin := copy_loop_indices_in_bounds buffers 0 (by omega)
    have hfree := store_bytes_free_in_bounds k
      (copy_loop (load_byte (set_free pool k 1) k) 0 buffers).1
      (copy_loop_indices 0 buffers) (set_free pool k 1) hin j
    simp only [set_free, hj, if_false] at hfree ⊢
    exact hfree

theorem enet_socket_send_releases_slot_witness :
    (∃ pool2 result,
      enet_socket_send 11 true (fun _ _ => (-1, 11)) 20
          (fun i => ⟨if i = 0 then 1 else 0, fun _ => 0⟩) [⟨[97, 98]⟩, ⟨[99, 100, 101]⟩]
        = .returned pool2 result) ∧
    (∀ pool2 result,
      enet_socket_send 11 true (fun _ _ => (-1, 11)) 20
          (fun i => ⟨if i = 0 then 1 else 0, fun _ => 0⟩) [⟨[97, 98]⟩, ⟨[99, 100, 101]⟩]
        = .returned pool2 result →
      ∃ k pool1 tries sleeps,
        acquire_loop true (fun i => ⟨if i = 0 then 1 else 0, fun _ => 0⟩) 20 0 1 0
          = .acquired pool1 k tries sleeps ∧
        (pool2 k).free = 0 ∧
        ∀ j, j ≠ k → (pool2 j).free
          = ((fun i => ⟨if i = 0 then 1 else 0, fun _ => 0⟩ : Pool) j).free) :=
  ⟨(enet_socket_send_releases_slot 11 true (fun _ _ => (-1, 11)) 20
      (fun i => ⟨if i = 0 then 1 else 0, fun _ => 0⟩) [⟨[97, 98]⟩, ⟨[99, 100, 101]⟩]).1
      (by decide) ⟨1, by decide, rfl⟩,
   fun pool2 result hret => by
    obtain ⟨k, pool1, tries, sleeps, hacq, hk, hothers⟩ :=
      (enet_socket_send_releases_slot 11 true (fun _ _ => (-1, 11)) 20
        (fun i => ⟨if i = 0 then 1 else 0, fun _ => 0⟩)
        [⟨[97, 98]⟩, ⟨[99, 100, 101]⟩]).2 pool2 result hret
    exact ⟨k, pool1, tries, sleeps, hacq, hk, hothers (by decide)⟩⟩

/-- C9: for both implementations of `enet_socket_send`, with an OS result that
is representable as the `int` the function returns: if the OS send returns -1
with `errno` equal to `EWOULDBLOCK` the call returns 0, if it returns -1 with
another `errno` the call returns -1, and otherwise the call returns exactly the
byte count the OS reported. The pool-based call is one that finds a free slot
and whose fragments fit it; `sendto` is given the flattened fragments. -/
theorem enet_socket_send_result_mapping (EWOULDBLOCK : Int) (NDEBUG : Bool)
    (sendto : (Nat → Nat) → Nat → Int × Int)
    (sendmsg : List ENetBuffer → Int × Int) (fuel : Nat) (pool : Pool)
    (buffers : List ENetBuffer) (hfuel : NUM_BUFFERS ≤ fuel)
    (hsome : ∃ i, i < NUM_BUFFERS ∧ (pool i).free = 0)
    (hfit : (buffers.map ENetBuffer.dataLength).sum ≤ BUFFER_SIZE)
    (hsendto : ∀ send_buff sendsize, int.holds (sendto send_buff sendsize).1)
    (hsendmsg : int.holds (sendmsg buffers).1) :
    (∃ pool2 send_buff sendsize,
      sendsize = (buffers.map ENetBuffer.dataLength).sum ∧
      (List.range sendsize).map send_buff = (buffers.map ENetBuffer.data).flatten ∧
      enet_socket_send EWOULDBLOCK NDEBUG sendto fuel pool buffers
        = .returned pool2
            (if (sendto send_buff sendsize).1 = -1 then
              if (sendto send_buff sendsize).2 = EWOULDBLOCK then 0 else -1
            else (sendto send_buff sendsize).1)) ∧
    Posix.enet_socket_send EWOULDBLOCK sendmsg buffers
      = (if (sendmsg buffers).1 = -1 then
          if (sendmsg buffers).2 = EWOULDBLOCK then 0 else -1
        else (sendmsg buffers).1) := by
  constructor
  · obtain ⟨k, _, _, _, _, hsend⟩ :=
      enet_socket_send_eq EWOULDBLOCK NDEBUG sendto fuel pool buffers hfuel hsome
    obtain ⟨buf, hcopy, hdata⟩ :=
      copy_loop_from_zero (load_byte (set_free pool k 1) k) buffers hfit
    rw [hcopy] at hsend
    simp only at hsend
    have h := hsendto buf (buffers.map ENetBuffer.dataLength).sum
    unfold Atomics.CType.holds at h
    rw [h] at hsend
    exact ⟨_, buf, _, rfl, hdata, hsend⟩
  · have h := hsendmsg
    unfold Atomics.CType.holds at h
    simp only [Posix.enet_socket_send, h]

theorem enet_socket_send_result_mapping_witness :
    (∃ pool2 send_buff sendsize,
      sendsize = (([⟨[97, 98]⟩, ⟨[99, 100, 101]⟩] : List ENetBuffer).map
        ENetBuffer.dataLength).sum ∧
      (List.range sendsize).map send_buff
        = (([⟨[97, 98]⟩, ⟨[99, 100, 101]⟩] : List ENetBuffer).map ENetBuffer.data).flatten ∧
      enet_socket_send 11 false (fun _ _ => (-1, 11)) 20 (fun _ => ⟨0, fun _ => 0⟩)
          [⟨[97, 98]⟩, ⟨[99, 100, 101]⟩]
        = .returned pool2
            (if ((fun _ _ => (-1, 11) : (Nat → Nat) → Nat → Int × Int) send_buff sendsize).1
                = -1 then
              if ((fun _ _ => (-1, 11) : (Nat → Nat) → Nat → Int × Int) send_buff sendsize).2
                = 11 then 0 else -1
            else ((fun _ _ => (-1, 11) : (Nat → Nat) → Nat → Int × Int) send_buff sendsize).1)) ∧
    Posix.enet_socket_send 11 (fun _ => (5, 0)) [⟨[97, 98]⟩, ⟨[99, 100, 101]⟩]
      = (if ((fun _ => (5, 0) : List ENetBuffer → Int × Int)
              [⟨[97, 98]⟩, ⟨[99, 100, 101]⟩]).1 = -1 then
          if ((fun _ => (5, 0) : List ENetBuffer → Int × Int)
              [⟨[97, 98]⟩, ⟨[99, 100, 101]⟩]).2 = 11 then 0 else -1
        else ((fun _ => (5, 0) : List ENetBuffer → Int × Int)
              [⟨[97, 98]⟩, ⟨[99, 100, 101]⟩]).1) :=
  enet_socket_send_result_mapping 11 false (fun _ _ => (-1, 11)) (fun _ => (5, 0)) 20
    (fun _ => ⟨0, fun _ => 0⟩) [⟨[97, 98]⟩, ⟨[99, 100, 101]⟩]
    (by decide) ⟨0, by decide, rfl⟩ (by decide) (fun _ _ => (by decide : int.holds (-1)))
    (by decide)

/-! ## The buffer-by-buffer `enet_socket_receive` -/

theorem receive_loop_later (EWOULDBLOCK : Int) (results : List (Int × Int)) :
    ∀ (i : Nat) (recvLength : Int), 0 < i →
      receive_loop EWOULDBLOCK i recvLength results
        = int.conv (recvLength
            + ((results.takeWhile (fun r => r.1 ≠ -1)).map Prod.fst).sum) := by
  induction results with
  | nil => intro i r _; simp [receive_loop]
  | cons hd tl ih =>
    intro i r hi
    obtain ⟨rc, errno⟩ := hd
    by_cases h : rc = -1
    · subst h
      have : i ≠ 0 := by omega
      simp [receive_loop, this]
    · simp only [receive_loop, h, if_false]
      rw [ih (i + 1) (r + rc) (by omega)]
      simp [List.takeWhile_cons, h, add_assoc]

theorem takeWhile_before_failure {α : Type} (p : α → Bool) (pre : List α) (x : α)
    (rest : List α) (hpre : ∀ r ∈ pre, p r = true) (hx : p x = false) :
    (pre ++ x :: rest).takeWhile p = pre := by
  induction pre with
  | nil => simp [List.takeWhile_cons, hx]
  | cons a tl ih =>
    have ha : p a = true := hpre a (List.mem_cons_self _ _)
    simp [List.takeWhile_cons, ha, ih (fun r hr => hpre r (List.mem_cons_of_mem _ hr))]

theorem takeWhile_all {α : Type} (p : α → Bool) (l : List α) (h : ∀ r ∈ l, p r = true) :
    l.takeWhile p = l := by
  induction l with
  | nil => rfl
  | cons a tl ih =>
    have ha : p a = true := h a (List.mem_cons_self _ _)
    simp [List.takeWhile_cons, ha, ih (fun r hr => h r (List.mem_cons_of_mem _ hr))]

theorem enet_socket_receive_first_ok (EWOULDBLOCK : Int) (results : List (Int × Int))
    (h : ∀ r, results.head? = some r → r.1 ≠ -1) :
    enet_socket_receive EWOULDBLOCK results
      = int.conv (((results.takeWhile (fun r => r.1 ≠ -1)).map Prod.fst).sum) := by
  cases results with
  | nil => simp [enet_socket_receive, receive_loop]
  | cons hd tl =>
    obtain ⟨rc, errno⟩ := hd
    have hrc : rc ≠ -1 := h (rc, errno) rfl
    simp only [enet_socket_receive, receive_loop, hrc, if_false]
    rw [receive_loop_later EWOULDBLOCK tl 1 (0 + rc) (by omega)]
    simp [List.takeWhile_cons, hrc]

/-- C10: for the buffer-by-buffer `enet_socket_receive` and the sequence of
per-fragment `recvfrom` results: if the receive of the first fragment fails the
call returns 0 when `errno` is `EWOULDBLOCK` and -1 otherwise; if the first
failure occurs at a later fragment the call returns the sum of the byte counts
of the fragments before it; if no fragment fails it returns the sum of all byte
counts. The sums are those representable as the `int` the function returns. -/
theorem enet_socket_receive_partial_result (EWOULDBLOCK : Int) :
    (∀ (errno : Int) (rest : List (Int × Int)),
      enet_socket_receive EWOULDBLOCK ((-1, errno) :: rest)
        = if errno = EWOULDBLOCK then 0 else -1) ∧
    (∀ (pre : List (Int × Int)) (errno : Int) (rest : List (Int × Int)),
      pre ≠ [] → (∀ r ∈ pre, r.1 ≠ -1) → int.holds (pre.map Prod.fst).sum →
      enet_socket_receive EWOULDBLOCK (pre ++ (-1, errno) :: rest)
        = (pre.map Prod.fst).sum) ∧
    (∀ (results : List (Int × Int)),
      (∀ r ∈ results, r.1 ≠ -1) → int.holds (results.map Prod.fst).sum →
      enet_socket_receive EWOULDBLOCK results = (results.map Prod.fst).sum) := by
  refine ⟨?_, ?_, ?_⟩
  · intro errno rest
    simp [enet_socket_receive, receive_loop]
  · intro pre errno rest hne hpre hfit
    rw [enet_socket_receive_first_ok]
    · rw [takeWhile_before_failure _ pre _ rest (by simpa using hpre) (by simp)]
      exact hfit
    · intro r hr
      cases pre with
      | nil => exact absurd rfl hne
      | cons a tl =>
        simp only [List.cons_append, List.head?_cons, Option.some.injEq] at hr
        exact hr ▸ hpre a (List.mem_cons_self _ _)
  · intro results hall hfit
    rw [enet_socket_receive_first_ok]
    · rw [takeWhile_all _ results (by simpa using hall)]
      exact hfit
    · intro r hr
      exact hall r (List.mem_of_mem_head? hr)

theorem enet_socket_receive_partial_result_witness :
    enet_socket_receive 11 [(-1, 11), (10, 0)] = 0 ∧
    enet_socket_receive 11 [(10, 0), (-1, 11)] = 10 ∧
    enet_socket_receive 11 [(10, 0), (5, 0)] = 15 :=
  ⟨(enet_socket_receive_partial_result 11).1 11 [(10, 0)],
   (enet_socket_receive_partial_result 11).2.1 [(10, 0)] 11 [] (by decide) (by decide)
     (by decide),
   (enet_socket_receive_partial_result 11).2.2 [(10, 0), (5, 0)] (by decide) (by decide)⟩

end Unix.NativeClient

namespace Unix

/-! ## Receive and truncation -/

/-- C11, as stated, fails: with a single 5-byte buffer and a 20-byte datagram
the buffer-by-buffer `enet_socket_receive` returns the 5 bytes `recvfrom`
copied, and so does the `recvmsg`-based one built without `HAS_MSGHDR_FLAGS`
although `recvmsg` sets `MSG_TRUNC` (here the bit 32). -/
theorem enet_socket_receive_ignores_truncation :
    NativeClient.enet_socket_receive 11 [NativeClient.recvfrom_datagram 5 20] = 5 ∧
    Posix.enet_socket_receive 11 32 false (fun _ => ⟨5, 0, 32⟩) [5] = 5 := by
  decide

/-- C11, amended: in the `recvmsg`-based `enet_socket_receive` built with
`HAS_MSGHDR_FLAGS`, whenever `recvmsg` succeeds and sets `MSG_TRUNC` in
`msg_flags` the call returns -1, never a byte count; built without
`HAS_MSGHDR_FLAGS` it returns the byte count of `recvmsg` whatever the flags,
and the buffer-by-buffer implementation returns the byte count `recvfrom` gives
for a single buffer, neither making a test of truncation. -/
theorem enet_socket_receive_truncation (EWOULDBLOCK : Int) (MSG_TRUNC : Nat)
    (HAS_MSGHDR_FLAGS : Bool) (recvmsg : List Nat → Posix.RecvmsgAnswer)
    (buffers : List Nat) (rc errno : Int)
    (hok : int.conv (recvmsg buffers).recvLength ≠ -1) :
    (HAS_MSGHDR_FLAGS = true → (recvmsg buffers).msg_flags &&& MSG_TRUNC ≠ 0 →
      Posix.enet_socket_receive EWOULDBLOCK MSG_TRUNC HAS_MSGHDR_FLAGS recvmsg buffers
        = -1) ∧
    (HAS_MSGHDR_FLAGS = false →
      Posix.enet_socket_receive EWOULDBLOCK MSG_TRUNC HAS_MSGHDR_FLAGS recvmsg buffers
        = int.conv (recvmsg buffers).recvLength) ∧
    (rc ≠ -1 → NativeClient.enet_socket_receive EWOULDBLOCK [(rc, errno)] = int.conv rc) := by
  refine ⟨?_, ?_, ?_⟩
  · intro hf ht
    simp [Posix.enet_socket_receive, hok, ht, hf]
  · intro hf
    simp [Posix.enet_socket_receive, hok, hf]
  · intro hrc
    simp [NativeClient.enet_socket_receive, NativeClient.receive_loop, hrc]

theorem enet_socket_receive_truncation_witness :
    Posix.enet_socket_receive 11 32 true (fun _ => ⟨5, 0, 32⟩) [5] = -1 ∧
    Posix.enet_socket_receive 11 32 false (fun _ => ⟨5, 0, 32⟩) [5] = int.conv 5 ∧
    NativeClient.enet_socket_receive 11 [(5, 0)] = int.conv 5 :=
  ⟨(enet_socket_receive_truncation 11 32 true (fun _ => ⟨5, 0, 32⟩) [5] 5 0
      (by decide)).1 rfl (by decide),
   (enet_socket_receive_truncation 11 32 false (fun _ => ⟨5, 0, 32⟩) [5] 5 0
      (by decide)).2.1 rfl,
   (enet_socket_receive_truncation 11 32 false (fun _ => ⟨5, 0, 32⟩) [5] 5 0
      (by decide)).2.2 (by decide)⟩

/-! ## Waiting for readiness -/

theorem ready_flags (S R : Nat) (hS : S ≠ 0) (hR : R ≠ 0) (hSR : S &&& R = 0)
    (w r : Prop) [Decidable w] [Decidable r] (c : Nat)
    (hc : c = if r then (if w then 0 ||| S else 0) ||| R else (if w then 0 ||| S else 0)) :
    (c &&& S ≠ 0 ↔ w) ∧ (c &&& R ≠ 0 ↔ r) ∧ c ||| (S ||| R) = S ||| R := by
  have hRS : R &&& S = 0 := by rw [Nat.and_comm]; exact hSR
  have key1 : S ||| (S ||| R) = S ||| R := by rw [← Nat.or_assoc, Nat.or_self]
  have key2 : R ||| (S ||| R) = S ||| R := by
    rw [Nat.or_comm S R, ← Nat.or_assoc, Nat.or_self]
  subst hc
  by_cases hw : w <;> by_cases hr : r <;>
    simp only [hw, hr, if_true, if_false, Nat.zero_or, Nat.zero_and, Nat.and_self,
      Nat.and_distrib_right, hSR, hRS, Nat.or_zero, Nat.or_self, key1, key2, ne_eq,
      not_true_eq_false, not_false_eq_true, iff_true, iff_false, hS, hR, and_self]

/-- C12, as stated, fails: with the flags 1, 2, 4 for send, receive, interrupt
and `EINTR` 4, a wait for send only whose `poll` or `select` is interrupted
returns -1 and leaves the condition as it was, not 0 with no flag. -/
theorem enet_socket_wait_interrupt_is_error :
    Poll.enet_socket_wait ⟨0, 1, 2, 4, 4, 1, 4⟩ (fun _ _ => ⟨-1, 4, 0⟩) 1 0 = (-1, 1) ∧
    Select.enet_socket_wait ⟨0, 1, 2, 4, 4, 1, 4⟩ (fun _ _ _ _ => ⟨-1, 4, false, false⟩) 1 0
      = (-1, 1) := by
  decide

/-- C12, amended: when the underlying `poll` or `select` is interrupted (a
result below 0 with `errno` equal to `EINTR`), `enet_socket_wait` returns 0 with
the condition set to exactly `ENET_SOCKET_WAIT_INTERRUPT` if the interest flags
of the caller include `ENET_SOCKET_WAIT_INTERRUPT`; otherwise it returns -1 and
leaves the condition unchanged. -/
theorem enet_socket_wait_interrupted (K : WaitConstants)
    (poll : Nat → Nat → Poll.PollAnswer)
    (select : Bool → Bool → Nat → Nat → Select.SelectAnswer) (condition timeout : Nat) :
    ((Poll.os_answer K poll condition timeout).pollCount < 0 →
      (Poll.os_answer K poll condition timeout).errno = K.EINTR →
      (condition &&& K.ENET_SOCKET_WAIT_INTERRUPT ≠ 0 →
        Poll.enet_socket_wait K poll condition timeout
          = (0, K.ENET_SOCKET_WAIT_INTERRUPT)) ∧
      (condition &&& K.ENET_SOCKET_WAIT_INTERRUPT = 0 →
        Poll.enet_socket_wait K poll condition timeout = (-1, condition))) ∧
    ((Select.os_answer K select condition timeout).selectCount < 0 →
      (Select.os_answer K select condition timeout).errno = K.EINTR →
      (condition &&& K.ENET_SOCKET_WAIT_INTERRUPT ≠ 0 →
        Select.enet_socket_wait K select condition timeout
          = (0, K.ENET_SOCKET_WAIT_INTERRUPT)) ∧
      (condition &&& K.ENET_SOCKET_WAIT_INTERRUPT = 0 →
        Select.enet_socket_wait K select condition timeout = (-1, condition))) := by
  constructor
  · intro hneg herr
    constructor
    · intro hi
      simp [Poll.enet_socket_wait, hneg, herr, hi]
    · intro hi
      simp [Poll.enet_socket_wait, hneg, herr, hi]
  · intro hneg herr
    constructor
    · intro hi
      simp [Select.enet_socket_wait, hneg, herr, hi]
    · intro hi
      simp [Select.enet_socket_wait, hneg, herr, hi]

theorem enet_socket_wait_interrupted_witness :
    Poll.enet_socket_wait ⟨0, 1, 2, 4, 4, 1, 4⟩ (fun _ _ => ⟨-1, 4, 0⟩) 5 0 = (0, 4) ∧
    Poll.enet_socket_wait ⟨0, 1, 2, 4, 4, 1, 4⟩ (fun _ _ => ⟨-1, 4, 0⟩) 1 0 = (-1, 1) ∧
    Select.enet_socket_wait ⟨0, 1, 2, 4, 4, 1, 4⟩ (fun _ _ _ _ => ⟨-1, 4, false, false⟩) 6 0
      = (0, 4) ∧
    Select.enet_socket_wait ⟨0, 1, 2, 4, 4, 1, 4⟩ (fun _ _ _ _ => ⟨-1, 4, false, false⟩) 2 0
      = (-1, 2) :=
  ⟨((enet_socket_wait_interrupted ⟨0, 1, 2, 4, 4, 1, 4⟩ (fun _ _ => ⟨-1, 4, 0⟩)
      (fun _ _ _ _ => ⟨-1, 4, false, false⟩) 5 0).1 (by decide) rfl).1 (by decide),
   ((enet_socket_wait_interrupted ⟨0, 1, 2, 4, 4, 1, 4⟩ (fun _ _ => ⟨-1, 4, 0⟩)
      (fun _ _ _ _ => ⟨-1, 4, false, false⟩) 1 0).1 (by decide) rfl).2 (by decide),
   ((enet_socket_wait_interrupted ⟨0, 1, 2, 4, 4, 1, 4⟩ (fun _ _ => ⟨-1, 4, 0⟩)
      (fun _ _ _ _ => ⟨-1, 4, false, false⟩) 6 0).2 (by decide) rfl).1 (by decide),
   ((enet_socket_wait_interrupted ⟨0, 1, 2, 4, 4, 1, 4⟩ (fun _ _ => ⟨-1, 4, 0⟩)
      (fun _ _ _ _ => ⟨-1, 4, false, false⟩) 2 0).2 (by decide) rfl).2 (by decide)⟩

end Unix

namespace Unix

/-- C13: whatever interest flags are requested, when `poll` or `select` reports
zero ready handles `enet_socket_wait` returns 0 and sets the condition to
`ENET_SOCKET_WAIT_NONE`; when it reports a positive count the call returns 0
and the condition contains `ENET_SOCKET_WAIT_SEND` exactly when the OS reported
writability, `ENET_SOCKET_WAIT_RECEIVE` exactly when it reported readability,
and no bit outside these two flags. The flags are those of an enum in which
none is 0 and send and receive are nonzero and share no bit. -/
theorem enet_socket_wait_ready_flags (K : WaitConstants)
    (poll : Nat → Nat → Poll.PollAnswer)
    (select : Bool → Bool → Nat → Nat → Select.SelectAnswer) (condition timeout : Nat)
    (hnone : K.ENET_SOCKET_WAIT_NONE = 0)
    (hsend : K.ENET_SOCKET_WAIT_SEND ≠ 0) (hreceive : K.ENET_SOCKET_WAIT_RECEIVE ≠ 0)
    (hdisjoint : K.ENET_SOCKET_WAIT_SEND &&& K.ENET_SOCKET_WAIT_RECEIVE = 0) :
    ((Poll.os_answer K poll condition timeout).pollCount = 0 →
      Poll.enet_socket_wait K poll condition timeout = (0, K.ENET_SOCKET_WAIT_NONE)) ∧
    (0 < (Poll.os_answer K poll condition timeout).pollCount →
      (Poll.enet_socket_wait K poll condition timeout).1 = 0 ∧
      ((Poll.enet_socket_wait K poll condition timeout).2 &&& K.ENET_SOCKET_WAIT_SEND ≠ 0 ↔
        (Poll.os_answer K poll condition timeout).revents &&& K.POLLOUT ≠ 0) ∧
      ((Poll.enet_socket_wait K poll condition timeout).2 &&& K.ENET_SOCKET_WAIT_RECEIVE ≠ 0 ↔
        (Poll.os_answer K poll condition timeout).revents &&& K.POLLIN ≠ 0) ∧
      (Poll.enet_socket_wait K poll condition timeout).2 |||
          (K.ENET_SOCKET_WAIT_SEND ||| K.ENET_SOCKET_WAIT_RECEIVE)
        = K.ENET_SOCKET_WAIT_SEND ||| K.ENET_SOCKET_WAIT_RECEIVE) ∧
    ((Select.os_answer K select condition timeout).selectCount = 0 →
      Select.enet_socket_wait K select condition timeout = (0, K.ENET_SOCKET_WAIT_NONE)) ∧
    (0 < (Select.os_answer K select condition timeout).selectCount →
      (Select.enet_socket_wait K select condition timeout).1 = 0 ∧
      ((Select.enet_socket_wait K select condition timeout).2 &&& K.ENET_SOCKET_WAIT_SEND
          ≠ 0 ↔
        (Select.os_answer K select condition timeout).writeSet = true) ∧
      ((Select.enet_socket_wait K select condition timeout).2 &&& K.ENET_SOCKET_WAIT_RECEIVE
          ≠ 0 ↔
        (Select.os_answer K select condition timeout).readSet = true) ∧
      (Select.enet_socket_wait K select condition timeout).2 |||
          (K.ENET_SOCKET_WAIT_SEND ||| K.ENET_SOCKET_WAIT_RECEIVE)
        = K.ENET_SOCKET_WAIT_SEND ||| K.ENET_SOCKET_WAIT_RECEIVE) := by
  refine ⟨?_, ?_, ?_, ?_⟩
  · intro h0
    simp [Poll.enet_socket_wait, h0]
  · intro hpos
    have h1 : ¬ (Poll.os_answer K poll condition timeout).pollCount < 0 := by omega
    have h2 : ¬ (Poll.os_answer K poll condition timeout).pollCount = 0 := by omega
    have hval : Poll.enet_socket_wait K poll condition timeout = (0,
        if (Poll.os_answer K poll condition timeout).revents &&& K.POLLIN ≠ 0 then
          (if (Poll.os_answer K poll condition timeout).revents &&& K.POLLOUT ≠ 0 then
            0 ||| K.ENET_SOCKET_WAIT_SEND else 0) ||| K.ENET_SOCKET_WAIT_RECEIVE
        else (if (Poll.os_answer K poll condition timeout).revents &&& K.POLLOUT ≠ 0 then
            0 ||| K.ENET_SOCKET_WAIT_SEND else 0)) := by
      simp only [Poll.enet_socket_wait, h1, h2, if_false, hnone]
    rw [hval]
    exact ⟨rfl, ready_flags _ _ hsend hreceive hdisjoint _ _ _ rfl⟩
  · intro h0
    simp [Select.enet_socket_wait, h0]
  · intro hpos
    have h1 : ¬ (Select.os_answer K select condition timeout).selectCount < 0 := by omega
    have h2 : ¬ (Select.os_answer K select condition timeout).selectCount = 0 := by omega
    have hval : Select.enet_socket_wait K select condition timeout = (0,
        if (Select.os_answer K select condition timeout).readSet = true then
          (if (Select.os_answer K select condition timeout).writeSet = true then
            0 ||| K.ENET_SOCKET_WAIT_SEND else 0) ||| K.ENET_SOCKET_WAIT_RECEIVE
        else (if (Select.os_answer K select condition timeout).writeSet = true then
            0 ||| K.ENET_SOCKET_WAIT_SEND else 0)) := by
      simp only [Select.enet_socket_wait, h1, h2, if_false, hnone]
    rw [hval]
    exact ⟨rfl, ready_flags _ _ hsend hreceive hdisjoint _ _ _ rfl⟩

theorem enet_socket_wait_ready_flags_witness :
    Poll.enet_socket_wait ⟨0, 1, 2, 4, 4, 1, 4⟩ (fun _ _ => ⟨0, 0, 0⟩) 3 0 = (0, 0) ∧
    ((Poll.enet_socket_wait ⟨0, 1, 2, 4, 4, 1, 4⟩ (fun _ _ => ⟨1, 0, 4⟩) 3 0).2 &&& 1
      ≠ 0) ∧
    Select.enet_socket_wait ⟨0, 1, 2, 4, 4, 1, 4⟩ (fun _ _ _ _ => ⟨0, 0, false, false⟩) 3 0
      = (0, 0) ∧
    ((Select.enet_socket_wait ⟨0, 1, 2, 4, 4, 1, 4⟩ (fun _ _ _ _ => ⟨1, 0, true, false⟩)
      3 0).2 &&& 2 ≠ 0) :=
  ⟨(enet_socket_wait_ready_flags ⟨0, 1, 2, 4, 4, 1, 4⟩ (fun _ _ => ⟨0, 0, 0⟩)
      (fun _ _ _ _ => ⟨0, 0, false, false⟩) 3 0 rfl (by decide) (by decide) (by decide)).1 rfl,
   ((enet_socket_wait_ready_flags ⟨0, 1, 2, 4, 4, 1, 4⟩ (fun _ _ => ⟨1, 0, 4⟩)
      (fun _ _ _ _ => ⟨1, 0, true, false⟩) 3 0 rfl (by decide) (by decide)
      (by decide)).2.1 (by decide)).2.1.mpr (by decide),
   (enet_socket_wait_ready_flags ⟨0, 1, 2, 4, 4, 1, 4⟩ (fun _ _ => ⟨0, 0, 0⟩)
      (fun _ _ _ _ => ⟨0, 0, false, false⟩) 3 0 rfl (by decide) (by decide)
      (by decide)).2.2.1 rfl,
   ((enet_socket_wait_ready_flags ⟨0, 1, 2, 4, 4, 1, 4⟩ (fun _ _ => ⟨1, 0, 4⟩)
      (fun _ _ _ _ => ⟨1, 0, true, false⟩) 3 0 rfl (by decide) (by decide)
      (by decide)).2.2.2 (by decide)).2.2.1.mpr rfl⟩

/-! ## Listen and socket options -/

/-- C14, as stated, fails: with `SOMAXCONN` 128 and an OS `listen` that returns
the backlog it is given, `enet_socket_listen` with backlog 0 passes 0 on. -/
theorem enet_socket_listen_zero_backlog :
    enet_socket_listen 128 (fun _ backlog => backlog) 3 0 = 0 ∧
    enet_socket_listen 128 (fun _ backlog => backlog) 3 0 ≠ 128 := by
  decide

/-- C14, amended: for every backlog below 0, `enet_socket_listen` passes
`SOMAXCONN` to `listen`; for every backlog of 0 or more, 0 included, it passes
the backlog unchanged. -/
theorem enet_socket_listen_backlog (SOMAXCONN : Int) (listen : Int → Int → Int)
    (socket backlog : Int) :
    (backlog < 0 →
      enet_socket_listen SOMAXCONN listen socket backlog = listen socket SOMAXCONN) ∧
    (0 ≤ backlog →
      enet_socket_listen SOMAXCONN listen socket backlog = listen socket backlog) := by
  unfold enet_socket_listen
  constructor
  · intro h; simp [h]
  · intro h; simp [not_lt.mpr h]

theorem enet_socket_listen_backlog_witness :
    enet_socket_listen 128 (fun _ backlog => backlog) 3 (-1) = 128 ∧
    enet_socket_listen 128 (fun _ backlog => backlog) 3 0 = 0 :=
  ⟨(enet_socket_listen_backlog 128 (fun _ backlog => backlog) 3 (-1)).1 (by decide),
   (enet_socket_listen_backlog 128 (fun _ backlog => backlog) 3 0).2 (by decide)⟩

open ENetSocketOption in
/-- C15: `enet_socket_set_option` returns -1 for every option outside
non-block, broadcast, reuse-address, receive buffer, send buffer, receive
timeout, send timeout, no-delay and type-of-service, and `enet_socket_get_option`
returns -1 for every option other than error, both without issuing an OS call;
for a supported option the result is 0 exactly when the OS call, the last one
issued, did not return -1; the result is always 0 or -1. -/
theorem enet_socket_option_results (HAS_FCNTL : Bool) (O_NONBLOCK : Int)
    (os : Syscall → Int) (option : ENetSocketOption) (value : Int) :
    (option ∉ [ENET_SOCKOPT_NONBLOCK, ENET_SOCKOPT_BROADCAST, ENET_SOCKOPT_REUSEADDR,
        ENET_SOCKOPT_RCVBUF, ENET_SOCKOPT_SNDBUF, ENET_SOCKOPT_RCVTIMEO,
        ENET_SOCKOPT_SNDTIMEO, ENET_SOCKOPT_NODELAY, ENET_SOCKOPT_TOS] →
      enet_socket_set_option HAS_FCNTL O_NONBLOCK os option value = (-1, [])) ∧
    (option ≠ ENET_SOCKOPT_ERROR → enet_socket_get_option os option = (-1, [])) ∧
    (option ∈ [ENET_SOCKOPT_NONBLOCK, ENET_SOCKOPT_BROADCAST, ENET_SOCKOPT_REUSEADDR,
        ENET_SOCKOPT_RCVBUF, ENET_SOCKOPT_SNDBUF, ENET_SOCKOPT_RCVTIMEO,
        ENET_SOCKOPT_SNDTIMEO, ENET_SOCKOPT_NODELAY, ENET_SOCKOPT_TOS] →
      ∃ call, (enet_socket_set_option HAS_FCNTL O_NONBLOCK os option value).2.getLast?
          = some call ∧
        ((enet_socket_set_option HAS_FCNTL O_NONBLOCK os option value).1 = 0 ↔
          os call ≠ -1)) ∧
    (option = ENET_SOCKOPT_ERROR →
      (enet_socket_get_option os option).2 = [.getsockopt .SOL_SOCKET .SO_ERROR] ∧
      ((enet_socket_get_option os option).1 = 0 ↔
        os (.getsockopt .SOL_SOCKET .SO_ERROR) ≠ -1)) ∧
    ((enet_socket_set_option HAS_FCNTL O_NONBLOCK os option value).1 = 0 ∨
      (enet_socket_set_option HAS_FCNTL O_NONBLOCK os option value).1 = -1) ∧
    ((enet_socket_get_option os option).1 = 0 ∨
      (enet_socket_get_option os option).1 = -1) := by
  refine ⟨?_, ?_, ?_, ?_, ?_, ?_⟩
  · intro h
    cases option <;> simp at h <;> rfl
  · intro h
    cases option <;> first | rfl | exact absurd rfl h
  · intro h
    cases option <;> simp at h
    · cases HAS_FCNTL
      · exact ⟨_, rfl, by simp [enet_socket_set_option, set_option_switch, issue]⟩
      · exact ⟨_, rfl, by simp [enet_socket_set_option, set_option_switch]⟩
    all_goals exact ⟨_, rfl, by simp [enet_socket_set_option, set_option_switch, issue]⟩
  · intro h
    subst h
    exact ⟨rfl, by simp [enet_socket_get_option, get_option_switch, issue]⟩
  · simp only [enet_socket_set_option]
    split_ifs <;> simp
  · simp only [enet_socket_get_option]
    split_ifs <;> simp

open ENetSocketOption in
theorem enet_socket_option_results_witness :
    enet_socket_set_option true 2048 (fun _ => 0) ENET_SOCKOPT_ERROR 1 = (-1, []) ∧
    enet_socket_get_option (fun _ => 0) ENET_SOCKOPT_TOS = (-1, []) ∧
    (∃ call, (enet_socket_set_option true 2048 (fun _ => 0) ENET_SOCKOPT_NONBLOCK 1).2.getLast?
        = some call ∧
      ((enet_socket_set_option true 2048 (fun _ => 0) ENET_SOCKOPT_NONBLOCK 1).1 = 0 ↔
        (fun _ => 0 : Syscall → Int) call ≠ -1)) ∧
    ((enet_socket_get_option (fun _ => 0) ENET_SOCKOPT_ERROR).2
        = [.getsockopt .SOL_SOCKET .SO_ERROR] ∧
      ((enet_socket_get_option (fun _ => 0) ENET_SOCKOPT_ERROR).1 = 0 ↔
        (fun _ => 0 : Syscall → Int) (.getsockopt .SOL_SOCKET .SO_ERROR) ≠ -1)) :=
  ⟨(enet_socket_option_results true 2048 (fun _ => 0) ENET_SOCKOPT_ERROR 1).1 (by decide),
   (enet_socket_option_results true 2048 (fun _ => 0) ENET_SOCKOPT_TOS 1).2.1 (by decide),
   (enet_socket_option_results true 2048 (fun _ => 0) ENET_SOCKOPT_NONBLOCK 1).2.2.1
     (by decide),
   (enet_socket_option_results true 2048 (fun _ => 0) ENET_SOCKOPT_ERROR 1).2.2.2.1 rfl⟩

end Unix

namespace Unix.NativeClient

/-! ## The acquire loop and the copy loop in full -/

theorem copy_loop_indices_overrun (buffers : List ENetBuffer) :
    ∀ sendsize, sendsize ≤ BUFFER_SIZE →
      BUFFER_SIZE < sendsize + (buffers.map ENetBuffer.dataLength).sum →
      ∃ j ∈ copy_loop_indices sendsize buffers, BUFFER_SIZE ≤ j := by
  have hB : BUFFER_SIZE = 32768 := by decide
  induction buffers with
  | nil => intro s h1 h2; simp at h2; omega
  | cons b rest ih =>
    intro sendsize h1 h2
    simp only [List.map_cons, List.sum_cons] at h2
    by_cases hle : sendsize + b.dataLength ≤ BUFFER_SIZE
    · have hmod : (sendsize + b.dataLength) % 2 ^ 32 = sendsize + b.dataLength := by
        apply Nat.mod_eq_of_lt
        norm_num
        omega
      obtain ⟨j, hj, hjb⟩ := ih (sendsize + b.dataLength) hle (by omega)
      refine ⟨j, ?_, hjb⟩
      simp only [copy_loop_indices, List.mem_append, hmod]
      exact Or.inr hj
    · refine ⟨sendsize + b.dataLength - 1, ?_, by omega⟩
      simp only [copy_loop_indices, List.mem_append]
      left
      rw [List.mem_range'_1]
      omega

/-- C17: the copy loop of the pool-based `enet_socket_send` writes every byte
at an index below `BUFFER_SIZE` if and only if the fragment lengths sum to at
most `BUFFER_SIZE`; for a fragment list that sums to more, it writes a byte at
an index at or beyond the end of the buffer of the slot. -/
theorem copy_loop_writes_in_bounds_iff (buffers : List ENetBuffer) :
    ((∀ j ∈ copy_loop_indices 0 buffers, j < BUFFER_SIZE) ↔
      (buffers.map ENetBuffer.dataLength).sum ≤ BUFFER_SIZE) ∧
    (BUFFER_SIZE < (buffers.map ENetBuffer.dataLength).sum →
      ∃ j ∈ copy_loop_indices 0 buffers, BUFFER_SIZE ≤ j) := by
  have hover : BUFFER_SIZE < (buffers.map ENetBuffer.dataLength).sum →
      ∃ j ∈ copy_loop_indices 0 buffers, BUFFER_SIZE ≤ j := by
    intro h
    exact copy_loop_indices_overrun buffers 0 (Nat.zero_le _) (by omega)
  refine ⟨⟨?_, ?_⟩, hover⟩
  · intro hall
    by_contra hsum
    obtain ⟨j, hj, hjb⟩ := hover (by omega)
    have := hall j hj
    omega
  · intro hsum
    exact copy_loop_indices_in_bounds buffers 0 (by omega)

theorem copy_loop_writes_in_bounds_iff_witness :
    (∀ j ∈ copy_loop_indices 0 [⟨[97, 98]⟩, ⟨[99, 100, 101]⟩], j < BUFFER_SIZE) ∧
    (∃ j ∈ copy_loop_indices 0 [⟨List.replicate 32768 0⟩, ⟨[1]⟩], BUFFER_SIZE ≤ j) :=
  ⟨(copy_loop_writes_in_bounds_iff [⟨[97, 98]⟩, ⟨[99, 100, 101]⟩]).1.mpr (by decide),
   (copy_loop_writes_in_bounds_iff [⟨List.replicate 32768 0⟩, ⟨[1]⟩]).2
     (by
      simp only [List.map_cons, List.map_nil, List.sum_cons, List.sum_nil,
        ENetBuffer.dataLength, List.length_replicate, List.length_cons, List.length_nil]
      decide)⟩

end Unix.NativeClient
